import Mathlib

/-
Verification of the fsleyes-props property/value/notification/binding engine.

The development shallowly embeds the Python source (src/props) in Lean:

* `Bidict` embeds the bi-directional dictionary of src/props/bindable.py
  (lines 35-58).
* `CallQueue` embeds src/props/callqueue.py.
* The `PVWorld` section embeds the scalar binding/synchronisation engine of
  src/props/bindable.py (`_bindPropVals`, `_buildBPVList`, `_sync`, `_notify`)
  over a world of boxed property-value containers.  The container itself
  (class `PropertyValue` of the `properties_value` module) is not part of
  src/, so its `set`/`notify`/equality behaviour is modelled from the spec
  (spec.md section 4.2 and 4.5).
* Further sections embed `isBound` (bindable.py), `PropertyBase._setLabel`,
  `HasProperties.getAllProperties` and the `validateOnChange` initialisation
  (properties.py), and `Choice.removeChoice` (properties_types.py).

Python dictionaries are embedded as association lists in insertion order,
Python `None` as `Option.none`, machine behaviour such as `dir()` returning
an alphabetically sorted name list is embedded explicitly.
-/

namespace Props

/-- Decidable equality for `Except`, used to evaluate the embedded
fallible operations on concrete inputs. -/
instance {ε α : Type} [DecidableEq ε] [DecidableEq α] :
    DecidableEq (Except ε α) := fun a b =>
  match a, b with
  | .ok x, .ok y =>
    if h : x = y then .isTrue (by rw [h]) else .isFalse (by simp [h])
  | .error x, .error y =>
    if h : x = y then .isTrue (by rw [h]) else .isFalse (by simp [h])
  | .ok _, .error _ => .isFalse (by simp)
  | .error _, .ok _ => .isFalse (by simp)

/-! ## Bidict (src/props/bindable.py, lines 35-58)

The underlying Python dict `_thedict` is embedded as an association list in
insertion order with dict semantics: `__setitem__` overwrites an existing
key in place, `pop` removes the entry for a key and fails (KeyError) when
the key is absent. -/

/-- Python `d[k] = v` on a plain dict: overwrite in place if `k` is present,
append otherwise. -/
def dictSet (d : List (Nat × Nat)) (k v : Nat) : List (Nat × Nat) :=
  if d.any (fun kv => kv.1 == k) then
    d.map (fun kv => if kv.1 == k then (k, v) else kv)
  else
    d ++ [(k, v)]

/-- Python `d.get(k)` on a plain dict: the value stored at the first (unique)
matching key. -/
def dictGet (d : List (Nat × Nat)) (k : Nat) : Option Nat :=
  (d.find? (fun kv => kv.1 == k)).map Prod.snd

/-- Python `d.pop(k)`: returns the removed value and the remaining dict, or
fails with KeyError when `k` is absent. -/
def dictPop (d : List (Nat × Nat)) (k : Nat) : Except String (Nat × List (Nat × Nat)) :=
  match dictGet d k with
  | none => .error "KeyError"
  | some v => .ok (v, d.filter (fun kv => kv.1 != k))

/-- The bi-directional dictionary of bindable.py: a bare wrapper around one
plain dict. -/
structure Bidict where
  thedict : List (Nat × Nat)
deriving DecidableEq

/-- Bidict `__setitem__` (bindable.py line 45): stores the pair in both
directions. -/
def Bidict.setItem (d : Bidict) (key value : Nat) : Bidict :=
  { thedict := dictSet (dictSet d.thedict key value) value key }

/-- Bidict `__delitem__` (bindable.py line 49): pops the key, then pops the
value that was stored under it. -/
def Bidict.delItem (d : Bidict) (key : Nat) : Except String Bidict :=
  match dictPop d.thedict key with
  | .error e => .error e
  | .ok (val, rest) =>
      match dictPop rest val with
      | .error e => .error e
      | .ok (_, rest₂) => .ok { thedict := rest₂ }

/-- Bidict `get` (bindable.py line 53). -/
def Bidict.get (d : Bidict) (key : Nat) : Option Nat :=
  dictGet d.thedict key

/-- Membership of a key in the Bidict: its `get` succeeds. -/
def Bidict.holds (d : Bidict) (key : Nat) : Bool :=
  (d.get key).isSome

theorem find?_eq_none_of_holds_false {d : Bidict} {k : Nat} (h : d.holds k = false) :
    d.thedict.find? (fun kv => kv.1 == k) = none := by
  unfold Bidict.holds Bidict.get dictGet at h
  cases hf : d.thedict.find? (fun kv => kv.1 == k) with
  | none => rfl
  | some kv => rw [hf] at h; simp at h

theorem keys_ne_of_holds_false {d : Bidict} {k : Nat} (h : d.holds k = false) :
    ∀ kv ∈ d.thedict, (kv.1 == k) = false := by
  intro kv hm
  have := List.find?_eq_none.mp (find?_eq_none_of_holds_false h) kv hm
  simpa using this

/-- C10: the Bidict maintains a symmetric bijection: for distinct keys `k`
and `v` not previously present, after `d[k] = v` both `d[k] == v` and
`d[v] == k` hold, and deleting either direction removes both entries of the
pair. -/
theorem bidict_symmetric_bijection (d : Bidict) (k v : Nat)
    (hkv : k ≠ v) (hk : d.holds k = false) (hv : d.holds v = false) :
    (d.setItem k v).get k = some v ∧ (d.setItem k v).get v = some k ∧
    (∃ d', (d.setItem k v).delItem k = .ok d' ∧
      d'.holds k = false ∧ d'.holds v = false) ∧
    (∃ d', (d.setItem k v).delItem v = .ok d' ∧
      d'.holds k = false ∧ d'.holds v = false) := by
  have hmk := keys_ne_of_holds_false hk
  have hmv := keys_ne_of_holds_false hv
  have hanyk : d.thedict.any (fun kv => kv.1 == k) = false := by
    rw [List.any_eq_false]; intro kv hm; simp [hmk kv hm]
  have hanyv : d.thedict.any (fun kv => kv.1 == v) = false := by
    rw [List.any_eq_false]; intro kv hm; simp [hmv kv hm]
  have hvk : v ≠ k := Ne.symm hkv
  have hkvb : (k == v) = false := by simpa using hkv
  have hvkb : (v == k) = false := by simpa using hvk
  have hset : d.setItem k v = ⟨d.thedict ++ [(k, v), (v, k)]⟩ := by
    unfold Bidict.setItem dictSet
    simp [hanyk, hanyv, hkvb]
  have hfk : (d.thedict ++ [(k, v), (v, k)]).find? (fun kv => kv.1 == k) =
      some (k, v) := by
    rw [List.find?_append, find?_eq_none_of_holds_false hk]
    simp
  have hfv : (d.thedict ++ [(k, v), (v, k)]).find? (fun kv => kv.1 == v) =
      some (v, k) := by
    rw [List.find?_append, find?_eq_none_of_holds_false hv]
    simp [hkvb]
  have hgetk : (d.setItem k v).get k = some v := by
    rw [hset]; unfold Bidict.get dictGet; rw [hfk]; rfl
  have hgetv : (d.setItem k v).get v = some k := by
    rw [hset]; unfold Bidict.get dictGet; rw [hfv]; rfl
  -- the filters used by `pop` leave the original entries untouched
  have hfiltk : (d.thedict ++ [(k, v), (v, k)]).filter (fun kv => kv.1 != k) =
      d.thedict ++ [(v, k)] := by
    rw [List.filter_append]
    have h1 : d.thedict.filter (fun kv => kv.1 != k) = d.thedict :=
      List.filter_eq_self.mpr (fun kv hm => by simpa using hmk kv hm)
    rw [h1]
    simp [hvk]
  have hfiltv : (d.thedict ++ [(k, v), (v, k)]).filter (fun kv => kv.1 != v) =
      d.thedict ++ [(k, v)] := by
    rw [List.filter_append]
    have h1 : d.thedict.filter (fun kv => kv.1 != v) = d.thedict :=
      List.filter_eq_self.mpr (fun kv hm => by simpa using hmv kv hm)
    rw [h1]
    simp [hkv]
  have hresk : (d.setItem k v).delItem k = .ok ⟨d.thedict⟩ := by
    rw [hset]
    unfold Bidict.delItem dictPop
    unfold dictGet
    rw [hfk]
    simp only [Option.map_some']
    rw [hfiltk]
    have hfv2 : (d.thedict ++ [(v, k)]).find? (fun kv => kv.1 == v) =
        some (v, k) := by
      rw [List.find?_append, find?_eq_none_of_holds_false hv]; simp
    rw [hfv2]
    simp only [Option.map_some']
    have : (d.thedict ++ [(v, k)]).filter (fun kv => kv.1 != v) = d.thedict := by
      rw [List.filter_append]
      have h1 : d.thedict.filter (fun kv => kv.1 != v) = d.thedict :=
        List.filter_eq_self.mpr (fun kv hm => by simpa using hmv kv hm)
      rw [h1]
      simp
    rw [this]
  have hresv : (d.setItem k v).delItem v = .ok ⟨d.thedict⟩ := by
    rw [hset]
    unfold Bidict.delItem dictPop
    unfold dictGet
    rw [hfv]
    simp only [Option.map_some']
    rw [hfiltv]
    have hfk2 : (d.thedict ++ [(k, v)]).find? (fun kv => kv.1 == k) =
        some (k, v) := by
      rw [List.find?_append, find?_eq_none_of_holds_false hk]; simp
    rw [hfk2]
    simp only [Option.map_some']
    have : (d.thedict ++ [(k, v)]).filter (fun kv => kv.1 != k) = d.thedict := by
      rw [List.filter_append]
      have h1 : d.thedict.filter (fun kv => kv.1 != k) = d.thedict :=
        List.filter_eq_self.mpr (fun kv hm => by simpa using hmk kv hm)
      rw [h1]
      simp
    rw [this]
  refine ⟨hgetk, hgetv, ⟨⟨d.thedict⟩, hresk, ?_, ?_⟩, ⟨⟨d.thedict⟩, hresv, ?_, ?_⟩⟩
  · exact hk
  · exact hv
  · exact hk
  · exact hv

/-- C10 witness: the property evaluated on the empty Bidict with the pair
`(1, 2)`. -/
theorem bidict_symmetric_bijection_witness :
    (1 : Nat) ≠ 2 ∧ (Bidict.mk []).holds 1 = false ∧
      (Bidict.mk []).holds 2 = false ∧
    (((Bidict.mk []).setItem 1 2).get 1 = some 2 ∧
     ((Bidict.mk []).setItem 1 2).get 2 = some 1 ∧
     (∃ d', ((Bidict.mk []).setItem 1 2).delItem 1 = .ok d' ∧
       d'.holds 1 = false ∧ d'.holds 2 = false) ∧
     (∃ d', ((Bidict.mk []).setItem 1 2).delItem 2 = .ok d' ∧
       d'.holds 1 = false ∧ d'.holds 2 = false)) :=
  ⟨by decide, by decide, by decide,
    bidict_symmetric_bijection (Bidict.mk []) 1 2 (by decide) (by decide)
      (by decide)⟩

/-! ## CallQueue (src/props/callqueue.py)

A queued listener callback is embedded as an opaque function identity
together with the one behaviour the claims depend on: whether invoking it
raises an exception.  The `args` tuple is embedded by its string rendering
`str(args)`, which is exactly the form `_push`/`_pop` use as the
deduplication key.  The `Except` result of `callPending` (`CallQueue._call`)
represents an exception escaping the drain loop to the caller; the
`try/except` around `func(*args)` in the source is the `match` on
`invokeCallback`, both branches of which continue the loop. -/

/-- A listener callback: an opaque function identity, plus whether calling
it raises. -/
structure Callback where
  fid : Nat
  throws : Bool
deriving DecidableEq

/-- Python `func(*args)`: returns normally or raises. -/
def invokeCallback (cb : Callback) : Except String Unit :=
  if cb.throws then .error "listener exception" else .ok ()

/-- One queue element: the `(desc, func, args)` triple of callqueue.py, with
`args` rendered as `str(args)`. -/
structure Entry where
  desc : String
  func : Callback
  args : String
deriving DecidableEq

/-- The state of a `CallQueue` instance (callqueue.py lines 44-55). -/
structure CallQueue where
  queue : List Entry
  skipDuplicates : Bool
  queued : List (Nat × String)
  calling : Bool
deriving DecidableEq

/-- CallQueue `__init__`. -/
def CallQueue.mkNew (skip : Bool) : CallQueue :=
  ⟨[], skip, [], false⟩

/-- CallQueue `_push` (callqueue.py lines 90-117): in `skipDuplicates` mode a
pending `(func, str(args))` pair already in `_queued` is dropped silently and
`False` is returned; otherwise the entry is enqueued and `True` is
returned. -/
def CallQueue.push (q : CallQueue) (e : Entry) : Bool × CallQueue :=
  if q.skipDuplicates then
    if q.queued.contains (e.func.fid, e.args) then
      (false, q)
    else
      (true, { q with queued := q.queued ++ [(e.func.fid, e.args)],
                      queue := q.queue ++ [e] })
  else
    (true, { q with queue := q.queue ++ [e] })

/-- The `while True` drain loop of `CallQueue._call` (callqueue.py lines
69-85): pop entries until the queue is empty, invoking each; an exception
raised by a callback is caught and logged and the loop continues.  Returns
the invoked entries in order, the logged (raising) entries, and the final
`_queued` set.  The embedded callbacks do not themselves enqueue. -/
def CallQueue.drainLoop :
    List Entry → List (Nat × String) → Bool →
    Except String (List Entry × List Entry × List (Nat × String))
  | [], queued, _ => .ok ([], [], queued)
  | e :: rest, queued, skip =>
    -- `_pop`: take the head, and in skipDuplicates mode remove its dedup key
    let queued' := if skip then queued.erase (e.func.fid, e.args) else queued
    match invokeCallback e.func with
    | .ok _ =>
        match CallQueue.drainLoop rest queued' skip with
        | .ok (inv, lg, qf) => .ok (e :: inv, lg, qf)
        | .error err => .error err
    | .error _ =>
        -- `except Exception as e: log.warn(...)` - caught, logged, continue
        match CallQueue.drainLoop rest queued' skip with
        | .ok (inv, lg, qf) => .ok (e :: inv, e :: lg, qf)
        | .error err => .error err

/-- CallQueue `_call` (callqueue.py lines 58-87): not re-entrant, drains the
whole queue. -/
def CallQueue.callPending (q : CallQueue) :
    Except String (CallQueue × List Entry × List Entry) :=
  if q.calling then .ok (q, [], [])
  else
    match CallQueue.drainLoop q.queue q.queued q.skipDuplicates with
    | .ok (inv, lg, qf) =>
        .ok ({ q with queue := [], queued := qf, calling := false }, inv, lg)
    | .error err => .error err

/-- CallQueue `call` (callqueue.py lines 134-146). -/
def CallQueue.call (q : CallQueue) (e : Entry) :
    Except String (CallQueue × List Entry × List Entry) :=
  if (q.push e).1 then (q.push e).2.callPending
  else .ok ((q.push e).2, [], [])

/-- CallQueue `callAll` (callqueue.py lines 149-169). -/
def CallQueue.callAll (q : CallQueue) (es : List Entry) :
    Except String (CallQueue × List Entry × List Entry) :=
  let st := es.foldl
    (fun (acc : Bool × CallQueue) e => (acc.1 || (acc.2.push e).1, (acc.2.push e).2))
    (false, q)
  if st.1 then st.2.callPending else .ok (st.2, [], [])

theorem drainLoop_ok (es : List Entry) (qd : List (Nat × String)) (sk : Bool) :
    ∃ qf, CallQueue.drainLoop es qd sk =
      .ok (es, es.filter (fun e => e.func.throws), qf) := by
  induction es generalizing qd with
  | nil => exact ⟨qd, rfl⟩
  | cons e rest ih =>
    obtain ⟨qf, hqf⟩ := ih (if sk then qd.erase (e.func.fid, e.args) else qd)
    by_cases hth : e.func.throws
    · exact ⟨qf, by simp [CallQueue.drainLoop, invokeCallback, hth, hqf]⟩
    · refine ⟨qf, ?_⟩
      simp only [Bool.not_eq_true] at hth
      simp [CallQueue.drainLoop, invokeCallback, hth, hqf]

theorem push_preserves_flags (q : CallQueue) (e : Entry) :
    (q.push e).2.calling = q.calling ∧
    (q.push e).2.skipDuplicates = q.skipDuplicates := by
  unfold CallQueue.push
  split <;> [skip; exact ⟨rfl, rfl⟩]
  split <;> exact ⟨rfl, rfl⟩

theorem callPending_ok_of_not_calling (q : CallQueue) (h : q.calling = false) :
    ∃ qf, q.callPending =
      .ok (qf, q.queue, q.queue.filter (fun e => e.func.throws)) := by
  obtain ⟨s, hs⟩ := drainLoop_ok q.queue q.queued q.skipDuplicates
  refine ⟨{ q with queue := [], queued := s, calling := false }, ?_⟩
  simp [CallQueue.callPending, h, hs]

theorem callPending_ok (q : CallQueue) :
    ∃ r, q.callPending = .ok r := by
  by_cases h : q.calling
  · exact ⟨(q, [], []), by simp [CallQueue.callPending, h]⟩
  · simp only [Bool.not_eq_true] at h
    obtain ⟨qf, hqf⟩ := callPending_ok_of_not_calling q h
    exact ⟨_, hqf⟩

theorem ite_callPending_ok (b : Bool) (q₁ : CallQueue) :
    ∃ r, (if b then q₁.callPending else .ok (q₁, [], [])) = .ok r := by
  cases b
  · exact ⟨(q₁, [], []), rfl⟩
  · simpa using callPending_ok q₁


/-- C9: an exception raised by a callback during a drain is caught inside
the queue: every enqueued callback is still invoked (the invoked list is the
whole queue, whatever the `throws` flags are), raising callbacks are logged,
and neither `call` nor `callAll` ever propagates an exception to its
caller. -/
theorem callqueue_listener_exceptions_isolated (q : CallQueue)
    (h : q.calling = false) :
    (∃ qf, q.callPending =
      .ok (qf, q.queue, q.queue.filter (fun e => e.func.throws))) ∧
    (∀ e, ∃ r, q.call e = .ok r) ∧
    (∀ es, ∃ r, q.callAll es = .ok r) := by
  refine ⟨callPending_ok_of_not_calling q h, ?_, ?_⟩
  · intro e
    exact ite_callPending_ok (q.push e).1 (q.push e).2
  · intro es
    exact ite_callPending_ok
      (es.foldl (fun (acc : Bool × CallQueue) e =>
        (acc.1 || (acc.2.push e).1, (acc.2.push e).2)) (false, q)).1
      (es.foldl (fun (acc : Bool × CallQueue) e =>
        (acc.1 || (acc.2.push e).1, (acc.2.push e).2)) (false, q)).2

/-- C9 witness: a queue holding a raising callback followed by a normal one;
both are invoked, only the raising one is logged, nothing propagates. -/
theorem callqueue_listener_exceptions_isolated_witness :
    (CallQueue.mk [⟨"bad", ⟨0, true⟩, "()"⟩, ⟨"good", ⟨1, false⟩, "()"⟩]
        false [] false).calling = false ∧
    ((∃ qf, (CallQueue.mk [⟨"bad", ⟨0, true⟩, "()"⟩, ⟨"good", ⟨1, false⟩, "()"⟩]
        false [] false).callPending =
      .ok (qf, [⟨"bad", ⟨0, true⟩, "()"⟩, ⟨"good", ⟨1, false⟩, "()"⟩],
        [⟨"bad", ⟨0, true⟩, "()"⟩])) ∧
     (∀ e, ∃ r, (CallQueue.mk [⟨"bad", ⟨0, true⟩, "()"⟩,
        ⟨"good", ⟨1, false⟩, "()"⟩] false [] false).call e = .ok r) ∧
     (∀ es, ∃ r, (CallQueue.mk [⟨"bad", ⟨0, true⟩, "()"⟩,
        ⟨"good", ⟨1, false⟩, "()"⟩] false [] false).callAll es = .ok r)) := by
  constructor
  · rfl
  · have := callqueue_listener_exceptions_isolated
      (CallQueue.mk [⟨"bad", ⟨0, true⟩, "()"⟩, ⟨"good", ⟨1, false⟩, "()"⟩]
        false [] false) rfl
    simpa using this

/-- C8: with `skipDuplicates=True`, enqueuing the same function with the
same argument rendering while the first entry is pending drops the second
enqueue (push returns `False` and leaves the queue unchanged), and a batch
containing the same `(func, args)` twice results in exactly one invocation
when the queue drains. -/
theorem callqueue_skip_duplicates (d1 d2 : String) (cb : Callback)
    (args : String) (q : CallQueue) (hskip : q.skipDuplicates = true)
    (hpend : q.queued.contains (cb.fid, args) = true) :
    q.push ⟨d2, cb, args⟩ = (false, q) ∧
    (∃ qf lg, (CallQueue.mkNew true).callAll
        [⟨d1, cb, args⟩, ⟨d2, cb, args⟩] =
      .ok (qf, [⟨d1, cb, args⟩], lg)) := by
  constructor
  · have hpend' : (cb.fid, args) ∈ q.queued := by simpa using hpend
    unfold CallQueue.push
    simp [hskip, hpend']
  · obtain ⟨qf, hqf⟩ := drainLoop_ok [⟨d1, cb, args⟩] [(cb.fid, args)] true
    refine ⟨⟨[], true, qf, false⟩,
      [⟨d1, cb, args⟩].filter (fun e => e.func.throws), ?_⟩
    simp [CallQueue.callAll, CallQueue.mkNew, CallQueue.push,
      CallQueue.callPending, hqf]

/-- C8 witness: the concrete scenario with a fresh skip-duplicates queue. -/
theorem callqueue_skip_duplicates_witness :
    ((CallQueue.mk [] true [(5, "(1,)")] false).skipDuplicates = true ∧
     (CallQueue.mk [] true [(5, "(1,)")] false).queued.contains
        (5, "(1,)") = true) ∧
    ((CallQueue.mk [] true [(5, "(1,)")] false).push
        ⟨"y", ⟨5, false⟩, "(1,)"⟩ = (false, CallQueue.mk [] true [(5, "(1,)")] false) ∧
     (∃ qf lg, (CallQueue.mkNew true).callAll
        [⟨"x", ⟨5, false⟩, "(1,)"⟩, ⟨"y", ⟨5, false⟩, "(1,)"⟩] =
      .ok (qf, [⟨"x", ⟨5, false⟩, "(1,)"⟩], lg))) :=
  ⟨⟨by decide, by decide⟩,
    callqueue_skip_duplicates "x" "y" ⟨5, false⟩ "(1,)"
      (CallQueue.mk [] true [(5, "(1,)")] false) (by decide) (by decide)⟩

/-! ## getAllProperties (src/props/properties.py, lines 691-712)

A `HasProperties` class is embedded as its attribute table: a list of
`(name, isPropertyBase)` pairs in declaration order.  Attribute names are
embedded as character lists (`PyStr`), ordered lexicographically exactly as
Python compares strings.  CPython `dir(cls)` returns the attribute names
sorted alphabetically, which the embedding makes explicit via an insertion
sort under that order. -/

/-- A Python identifier, as a list of characters. -/
abbrev PyStr := List Char

/-- Python `name.startswith('_')`. -/
def startsWithUnderscore : PyStr → Bool
  | c :: _ => c == '_'
  | [] => false

/-- Python `dir(cls)`: all attribute names, sorted alphabetically. -/
def pyDir (attrs : List (PyStr × Bool)) : List PyStr :=
  List.insertionSort (fun a b => a ≤ b) (attrs.map Prod.fst)

/-- HasProperties `getAllProperties` (properties.py lines 691-712): walk
`dir(cls)`, keep attributes that are `PropertyBase` instances and whose name
does not begin with an underscore. -/
def getAllProperties (attrs : List (PyStr × Bool)) : List PyStr :=
  (pyDir attrs).filter
    (fun n => ((attrs.lookup n).getD false) && !(startsWithUnderscore n))

/-- The property names of the class in declaration order (what the claim
says `getAllProperties` should return). -/
def declaredPropNames (attrs : List (PyStr × Bool)) : List PyStr :=
  (attrs.filter (fun kv => kv.2 && !(startsWithUnderscore kv.1))).map Prod.fst

/-- C5 counterexample: a class declaring properties `zz` then `aa` (in that
order); `getAllProperties` returns them alphabetically sorted, not in
declaration order. -/
theorem getAllProperties_not_declaration_order :
    getAllProperties [(['z', 'z'], true), (['a', 'a'], true)] =
      [['a', 'a'], ['z', 'z']] ∧
    declaredPropNames [(['z', 'z'], true), (['a', 'a'], true)] =
      [['z', 'z'], ['a', 'a']] ∧
    getAllProperties [(['z', 'z'], true), (['a', 'a'], true)] ≠
      declaredPropNames [(['z', 'z'], true), (['a', 'a'], true)] := by
  refine ⟨by decide, by decide, by decide⟩

theorem lookup_some_true_iff {attrs : List (PyStr × Bool)}
    (hnd : (attrs.map Prod.fst).Nodup) (n : PyStr) :
    List.lookup n attrs = some true ↔ (n, true) ∈ attrs := by
  induction attrs with
  | nil => simp [List.lookup]
  | cons kv rest ih =>
    obtain ⟨k, b⟩ := kv
    simp only [List.map_cons, List.nodup_cons] at hnd
    by_cases hk : n = k
    · subst hk
      simp only [List.lookup, beq_self_eq_true, List.mem_cons]
      constructor
      · intro hb
        left
        simpa using hb.symm
      · intro hb
        rcases hb with hb | hb
        · simp [Prod.ext_iff] at hb
          simp [hb]
        · exact absurd (List.mem_map_of_mem Prod.fst hb) hnd.1
    · have hkb : (n == k) = false := by simpa using hk
      simp only [List.lookup, hkb, List.mem_cons]
      rw [ih hnd.2]
      constructor
      · intro h; right; exact h
      · intro h
        rcases h with h | h
        · exact absurd (congrArg Prod.fst h) hk
        · exact h

/-- C5 amended: `getAllProperties` returns the non-underscore descriptor
names sorted alphabetically (the order of `dir()`), not declaration order;
underscore-prefixed and non-descriptor attributes are excluded. -/
theorem getAllProperties_sorted_excludes_underscore
    (attrs : List (PyStr × Bool)) (hnd : (attrs.map Prod.fst).Nodup) :
    (getAllProperties attrs).Sorted (· ≤ ·) ∧
    ∀ n, n ∈ getAllProperties attrs ↔
      ((n, true) ∈ attrs ∧ startsWithUnderscore n = false) := by
  constructor
  · have hs : (pyDir attrs).Sorted (· ≤ ·) :=
      List.sorted_insertionSort (fun a b => a ≤ b) (attrs.map Prod.fst)
    exact List.Pairwise.sublist (List.filter_sublist _) hs
  · intro n
    unfold getAllProperties
    rw [List.mem_filter]
    have hmem : n ∈ pyDir attrs ↔ n ∈ attrs.map Prod.fst :=
      (List.perm_insertionSort (fun a b => a ≤ b) (attrs.map Prod.fst)).mem_iff
    constructor
    · rintro ⟨-, hpn⟩
      simp only [Bool.and_eq_true, Bool.not_eq_true'] at hpn
      obtain ⟨hlk, hus⟩ := hpn
      have : List.lookup n attrs = some true := by
        cases hl : List.lookup n attrs with
        | none => rw [hl] at hlk; simp at hlk
        | some b => rw [hl] at hlk; simp at hlk; simp [hlk]
      exact ⟨(lookup_some_true_iff hnd n).mp this, hus⟩
    · rintro ⟨hm, hus⟩
      refine ⟨hmem.mpr (List.mem_map_of_mem Prod.fst hm), ?_⟩
      have : List.lookup n attrs = some true :=
        (lookup_some_true_iff hnd n).mpr hm
      simp [this, hus]

/-- C5 amended witness. -/
theorem getAllProperties_sorted_excludes_underscore_witness :
    (([(['z', 'z'], true), (['a', 'a'], true), (['_', 'h'], true),
        (['o', 't'], false)] :
      List (PyStr × Bool)).map Prod.fst).Nodup ∧
    ((getAllProperties [(['z', 'z'], true), (['a', 'a'], true),
        (['_', 'h'], true), (['o', 't'], false)]).Sorted (fun a b => a ≤ b) ∧
     ∀ n, n ∈ getAllProperties [(['z', 'z'], true), (['a', 'a'], true),
        (['_', 'h'], true), (['o', 't'], false)] ↔
      ((n, true) ∈ [(['z', 'z'], true), (['a', 'a'], true),
        (['_', 'h'], true), (['o', 't'], false)] ∧
        startsWithUnderscore n = false)) :=
  ⟨by decide,
   getAllProperties_sorted_excludes_underscore
     [(['z', 'z'], true), (['a', 'a'], true), (['_', 'h'], true),
       (['o', 't'], false)] (by decide)⟩

/-! ## PropertyBase._setLabel (src/props/properties.py, lines 152-168)

The `_label` attribute of a descriptor is a dict mapping each owning class
to the attribute name the descriptor was assigned to on that class; classes
are embedded as identifiers.  `_setLabel` raises a RuntimeError only when
the *same class* already has a label for this descriptor. -/

/-- PropertyBase `_setLabel` (properties.py lines 152-168). -/
def setLabel (lbl : List (Nat × String)) (cls : Nat) (label : String) :
    Except String (List (Nat × String)) :=
  if (List.lookup cls lbl).isSome then
    .error "RuntimeError: a PropertyBase instance may only be present on a class once"
  else
    .ok (lbl ++ [(cls, label)])

/-- C6 counterexample: a descriptor already labelled on class `0` is then
labelled on a *different* class `1`: the source happily accepts it (this is
how inherited descriptors get a label for each subclass), whereas the claim
says any second labeling fails. -/
theorem setLabel_second_class_succeeds :
    setLabel [(0, "prop1")] 1 "prop2" = .ok [(0, "prop1"), (1, "prop2")] := by
  rfl

theorem lookup_append_single (lbl : List (Nat × String)) (cls : Nat)
    (label : String) (h : List.lookup cls lbl = none) :
    List.lookup cls (lbl ++ [(cls, label)]) = some label := by
  induction lbl with
  | nil => simp [List.lookup]
  | cons kv rest ih =>
    simp only [List.lookup, List.cons_append] at h ⊢
    cases hk : (cls == kv.1) with
    | true => rw [hk] at h; simp at h
    | false => rw [hk] at h; exact ih h

/-- C6 amended: a descriptor may be labelled at most once *per class*: the
first labeling of a class succeeds, and any attempt to rebind the same
descriptor instance under a second name on the *same* class fails with a
RuntimeError; labeling the same descriptor on a different class succeeds. -/
theorem setLabel_once_per_class (lbl : List (Nat × String)) (cls : Nat)
    (label : String) (h : List.lookup cls lbl = none) :
    setLabel lbl cls label = .ok (lbl ++ [(cls, label)]) ∧
    ∀ label2, ∃ e, setLabel (lbl ++ [(cls, label)]) cls label2 = .error e := by
  constructor
  · simp [setLabel, h]
  · intro label2
    refine ⟨"RuntimeError: a PropertyBase instance may only be present on a class once", ?_⟩
    simp [setLabel, lookup_append_single lbl cls label h]

/-- C6 amended witness. -/
theorem setLabel_once_per_class_witness :
    List.lookup 3 ([(0, "prop1")] : List (Nat × String)) = none ∧
    (setLabel [(0, "prop1")] 3 "q" = .ok [(0, "prop1"), (3, "q")] ∧
     ∀ label2, ∃ e,
       setLabel ([(0, "prop1")] ++ [(3, "q")]) 3 label2 = .error e) :=
  ⟨by decide, setLabel_once_per_class [(0, "prop1")] 3 "q" (by decide)⟩

/-! ## validateOnChange initialisation (src/props/properties.py, 577-591)

`HasProperties.__init__` with `validateOnChange=True` runs

    propNames, props = self.getAllProperties()
    for prop, propName in zip(propNames, props):
        propVal = prop.getPropVal(self)
        propVal.setPreNotifyFunction(self.__valueChanged)

`zip(propNames, props)` pairs each *name* first, so the loop variable
`prop` is bound to the name string, and `prop.getPropVal(self)` is an
attribute access on a `str`.  The embedding distinguishes strings from
`PropertyBase` objects to capture the resulting AttributeError. -/

/-- A Python value that is either an attribute-name string or a
`PropertyBase` descriptor object. -/
inductive PyAttr where
  | pyStr (s : String)
  | pyProp (p : Nat)
deriving DecidableEq

/-- Python attribute access `x.getPropVal(...)`: `PropertyBase` objects have
the method; a `str` does not, so the access raises AttributeError. -/
def getPropValMethod : PyAttr → Except String Nat
  | .pyStr _ => .error "AttributeError: str object has no attribute getPropVal"
  | .pyProp p => .ok p

/-- The `validateOnChange=True` branch of `HasProperties.__init__`
(properties.py lines 586-591), with `zip(propNames, props)` unpacked into
`(prop, propName)` exactly as the source writes it: `prop` receives the
name. Returns the property values on which the pre-notify hook was
installed. -/
def initValidateOnChange (propNames : List String) (props : List Nat) :
    Except String (List Nat) :=
  (propNames.zip props).foldlM
    (fun acc pair =>
      match getPropValMethod (PyAttr.pyStr pair.1) with
      | .ok propVal => .ok (acc ++ [propVal])
      | .error e => .error e)
    []

/-- C4: constructing any host that has at least one property with
`validateOnChange=True` raises an AttributeError from the swapped loop
variables, so the cross-revalidation hooks are never installed. -/
theorem initValidateOnChange_raises (n : String) (ns : List String)
    (p : Nat) (ps : List Nat) :
    initValidateOnChange (n :: ns) (p :: ps) =
      .error "AttributeError: str object has no attribute getPropVal" := rfl

/-! ## isBound (src/props/bindable.py, lines 138-154)

`_bindPropVals` stores the binding edge as `boundPropVals[id(other)] =
other`: the dict keys are integer object ids.  `isBound` then evaluates
`otherPropVal in myBoundPropVals`, a membership test of a *PropertyValue
object* against those integer keys.  The embedding separates the two Python
value kinds; Python `==` between an `int` key and a `PropertyValue` is
false (`int.__eq__` returns NotImplemented and the containers in the claim
scenario hold non-integer values). -/

/-- A Python object appearing in a `boundPropVals` dict: an integer id or a
PropertyValue. -/
inductive PyObj where
  | pyInt (n : Nat)
  | pyPV (pvid : Nat)
deriving DecidableEq

/-- Python `==` as used by dict key lookup: ints by value, PropertyValues by
identity, an int never equal to a PropertyValue. -/
def pyEq : PyObj → PyObj → Bool
  | .pyInt a, .pyInt b => a == b
  | .pyPV a, .pyPV b => a == b
  | _, _ => false

/-- Python `q in d` for a (Weak-)dict: does any key compare equal to
`q`. -/
def pyDictContains (d : List (PyObj × PyObj)) (q : PyObj) : Bool :=
  d.any (fun kv => pyEq kv.1 q)

/-- Python `d[k] = v` over the embedded object dict. -/
def pyDictSet (d : List (PyObj × PyObj)) (k v : PyObj) : List (PyObj × PyObj) :=
  if d.any (fun kv => pyEq kv.1 k) then
    d.map (fun kv => if pyEq kv.1 k then (k, v) else kv)
  else
    d ++ [(k, v)]

/-- The `boundPropVals` dicts of the two containers named in an `isBound`
query. -/
structure BoundState where
  myBound : List (PyObj × PyObj)
  otherBound : List (PyObj × PyObj)
deriving DecidableEq

/-- The value-binding registration of `_bindPropVals` (bindable.py lines
363-369): `myBoundPropVals[id(other)] = other` and symmetrically. -/
def bindPropValsEdge (myId otherId : Nat) (s : BoundState) : BoundState :=
  { myBound := pyDictSet s.myBound (.pyInt otherId) (.pyPV otherId),
    otherBound := pyDictSet s.otherBound (.pyInt myId) (.pyPV myId) }

/-- Function `isBound` (bindable.py lines 138-154): the membership tests
`otherPropVal in myBoundPropVals and myPropVal in otherBoundPropVals`. -/
def isBound (myId otherId : Nat) (s : BoundState) : Bool :=
  pyDictContains s.myBound (.pyPV otherId) &&
  pyDictContains s.otherBound (.pyPV myId)

/-- C3: with the edges stored under integer-id keys, the membership test of
a PropertyValue object against those keys can never succeed: `isBound`
returns False even immediately after `_bindPropVals` has registered a live
edge between the two containers (contradicting the claim, the isBound
docstring, and the spec). -/
theorem isBound_false_even_when_bound (myId otherId : Nat) (s : BoundState)
    (hm : ∀ kv ∈ s.myBound, ∃ n, kv.1 = PyObj.pyInt n)
    (_ho : ∀ kv ∈ s.otherBound, ∃ n, kv.1 = PyObj.pyInt n) :
    isBound myId otherId (bindPropValsEdge myId otherId s) = false ∧
    isBound myId otherId s = false := by
  have hfalse : ∀ (d : List (PyObj × PyObj)) (x : Nat),
      (∀ kv ∈ d, ∃ n, kv.1 = PyObj.pyInt n) →
      pyDictContains d (.pyPV x) = false := by
    intro d x hd
    rw [pyDictContains, List.any_eq_false]
    intro kv hkv
    obtain ⟨n, hn⟩ := hd kv hkv
    rw [hn]
    simp [pyEq]
  have hkeys : ∀ (d : List (PyObj × PyObj)) (k v : PyObj),
      (∀ kv ∈ d, ∃ n, kv.1 = PyObj.pyInt n) → (∃ n, k = PyObj.pyInt n) →
      ∀ kv ∈ pyDictSet d k v, ∃ n, kv.1 = PyObj.pyInt n := by
    intro d k v hd hk kv hkv
    rw [pyDictSet] at hkv
    split at hkv
    · obtain ⟨kv0, hkv0, hmap⟩ := List.mem_map.mp hkv
      split at hmap
      · obtain ⟨n, hn⟩ := hk
        exact ⟨n, by rw [← hmap, hn]⟩
      · rw [← hmap]
        exact hd kv0 hkv0
    · rcases List.mem_append.mp hkv with h | h
      · exact hd kv h
      · obtain ⟨n, hn⟩ := hk
        have : kv = (k, v) := by simpa using h
        exact ⟨n, by rw [this, hn]⟩
  constructor
  · unfold isBound bindPropValsEdge
    rw [hfalse _ otherId (hkeys _ _ _ hm ⟨otherId, rfl⟩)]
    rfl
  · unfold isBound
    rw [hfalse _ otherId hm]
    rfl

/-- C3 witness: two freshly bound containers. -/
theorem isBound_false_even_when_bound_witness :
    ((∀ kv ∈ (BoundState.mk [] []).myBound, ∃ n, kv.1 = PyObj.pyInt n) ∧
     (∀ kv ∈ (BoundState.mk [] []).otherBound, ∃ n, kv.1 = PyObj.pyInt n)) ∧
    (isBound 10 20 (bindPropValsEdge 10 20 (BoundState.mk [] [])) = false ∧
     isBound 10 20 (BoundState.mk [] []) = false) :=
  ⟨⟨fun kv h => absurd h (List.not_mem_nil kv),
    fun kv h => absurd h (List.not_mem_nil kv)⟩,
   isBound_false_even_when_bound 10 20 (BoundState.mk [] [])
     (fun kv h => absurd h (List.not_mem_nil kv))
     (fun kv h => absurd h (List.not_mem_nil kv))⟩


/-! ## Choice.removeChoice (src/props/properties_types.py, lines 502-594)

The `Choice` property and its boxed value are embedded over `String`
choice values.  The constraint dictionaries (`choices`, `labels`,
`altLists`, `alternates`, `choiceEnabled`, `default`) are association
lists; on a bound instance `setConstraint` stores them as attributes of the
property value, embedded here as fields of `ChoiceState`.

The boxed container itself (`PropertyValue`, module `properties_value`) is
absent from src/, so its behaviour is modelled from the spec, section 4.2:
`set` casts (identity for `Choice`), validates, aborts when invalid and
`allowInvalid` is off, stores, and notifies listeners only when
notification is enabled and the value actually changed; `notify` fires
listeners only when notification is enabled.  `valueNotifies` counts the
value-change notifications delivered to the container's listeners. -/

/-- The boxed value of a Choice property on one instance.  Modelled from
the spec: value, notification state, allowInvalid state, and a counter of
delivered value-change notifications. -/
structure ChoicePropVal where
  value : Option String
  notifEnabled : Bool
  allowInvalid : Bool
  valueNotifies : Nat
deriving DecidableEq

/-- The constraint attributes of a Choice property (properties_types.py
lines 374-379). -/
structure ChoiceAtts where
  choices : List String
  labels : List (String × String)
  altLists : List (String × List String)
  alternates : List (String × String)
  choiceEnabled : List (String × Bool)
  defaultChoice : Option String
deriving DecidableEq

/-- A Choice property bound to one instance: its constraint attributes and
its boxed value. -/
structure ChoiceState where
  atts : ChoiceAtts
  propVal : ChoicePropVal
deriving DecidableEq

/-- Choice `validate` (properties_types.py lines 597-621).  The
`PropertyBase.validate` part (required / custom function) is a no-op for a
plain Choice.  Returns false where the source raises ValueError. -/
def choiceValidate (c : ChoiceAtts) (value : Option String) : Bool :=
  if c.choices.length == 0 then true
  else
    match value with
    | none => true
    | some v =>
      let altValue := c.alternates.lookup v
      let inChoices := c.choices.contains v
      let altInChoices := match altValue with
        | some a => c.choices.contains a
        | none => false
      if !inChoices && !altInChoices then false
      else (c.choiceEnabled.lookup v).getD false

/-- Modelled from the spec: `PropertyValue.set` (module `properties_value`,
absent from src/).  Casts (identity), validates, raises ValueError when
invalid and `allowInvalid` is off, is a no-op when the value is unchanged,
otherwise stores and, when notification is enabled, notifies listeners. -/
def choiceSet (s : ChoiceState) (v : Option String) : Except String ChoiceState :=
  let valid := choiceValidate s.atts v
  if !valid && !s.propVal.allowInvalid then .error "ValueError: invalid choice"
  else if s.propVal.value == v then .ok s
  else
    let pv := { s.propVal with value := v }
    if pv.notifEnabled then
      .ok { s with propVal := { pv with valueNotifies := pv.valueNotifies + 1 } }
    else
      .ok { s with propVal := pv }

/-- Modelled from the spec: `PropertyValue.notify` - fires the container's
listeners when notification is enabled (no bound containers exist in this
section, so the intercepted notify reduces to the original one). -/
def choiceNotify (s : ChoiceState) : ChoiceState :=
  if s.propVal.notifEnabled then
    { s with propVal :=
      { s.propVal with valueNotifies := s.propVal.valueNotifies + 1 } }
  else s

/-- Choice `__generateAlternatesDict` (properties_types.py lines 516-533):
inverts a `{choice : [alternates]}` dict, failing on duplicate alternate
values. -/
def generateAlternatesDict (altLists : List (String × List String)) :
    Except String (List (String × String)) :=
  altLists.foldlM
    (fun acc cl =>
      cl.2.foldlM
        (fun acc2 alt =>
          if (acc2.lookup alt).isSome then
            .error "ValueError: duplicate alternate value"
          else .ok (acc2 ++ [(alt, cl.1)]))
        acc)
    []

/-- Choice `__updateChoices` (properties_types.py lines 536-594) for a
bound instance (`propVal is not None`): disable notification and allow
invalid values, rebuild the enabled flags, re-derive the default, store the
new constraint attributes, reassign the value if the old choice vanished,
restore the notification and validity states, and notify value listeners
exactly when the stored value changed. -/
def updateChoices (s : ChoiceState) (choices : List String)
    (labels : List (String × String))
    (alternates0 : List (String × List String)) : Except String ChoiceState :=
  let oldChoice := s.propVal.value
  let notifState := s.propVal.notifEnabled
  let validState := s.propVal.allowInvalid
  let pv1 := { s.propVal with notifEnabled := false, allowInvalid := true }
  let newEnabled := choices.map
    (fun ch => (ch, (s.atts.choiceEnabled.lookup ch).getD true))
  -- `if default not in choices: default = choices[0]`
  let defRes : Except String (Option String) :=
    match s.atts.defaultChoice with
    | some d =>
      if choices.contains d then .ok (some d)
      else
        match choices with
        | [] => .error "IndexError: list index out of range"
        | c :: _ => .ok (some c)
    | none =>
      match choices with
      | [] => .error "IndexError: list index out of range"
      | c :: _ => .ok (some c)
  match defRes with
  | .error e => .error e
  | .ok newDefault =>
    match generateAlternatesDict alternates0 with
    | .error e => .error e
    | .ok alternates =>
      let atts1 : ChoiceAtts :=
        { choices := choices, labels := labels, altLists := alternates0,
          alternates := alternates, choiceEnabled := newEnabled,
          defaultChoice := newDefault }
      let s1 : ChoiceState := { atts := atts1, propVal := pv1 }
      -- `if oldChoice not in choices: ...` (None is never in the list)
      let oldGone := match oldChoice with
        | some oc => !(choices.contains oc)
        | none => true
      let setRes : Except String ChoiceState :=
        if oldGone then
          match newDefault with
          | some d =>
            if choices.contains d then choiceSet s1 (some d)
            else if choices.length > 0 then choiceSet s1 (some choices.head!)
            else choiceSet s1 none
          | none =>
            if choices.length > 0 then choiceSet s1 (some choices.head!)
            else choiceSet s1 none
        else .ok s1
      match setRes with
      | .error e => .error e
      | .ok s2 =>
        -- restore the notification and validity states
        let s3 : ChoiceState := { s2 with propVal :=
          { s2.propVal with notifEnabled := notifState,
                            allowInvalid := validState } }
        -- (notifyAttributeListeners('choices', ...) fires attribute
        -- listeners; it is not a value-change notification)
        if s3.propVal.value != oldChoice then .ok (choiceNotify s3)
        else .ok s3

/-- Choice `removeChoice` (properties_types.py lines 502-513):
`choices.remove` / `labels.pop` / `altLists.pop` fail when the choice is
absent; otherwise the updated dictionaries are handed to
`__updateChoices`. -/
def removeChoice (s : ChoiceState) (choice : String) :
    Except String ChoiceState :=
  if !(s.atts.choices.contains choice) then
    .error "ValueError: list.remove(x): x not in list"
  else if !((s.atts.labels.lookup choice).isSome) then .error "KeyError"
  else if !((s.atts.altLists.lookup choice).isSome) then .error "KeyError"
  else
    updateChoices s (s.atts.choices.erase choice)
      (s.atts.labels.filter (fun kv => kv.1 != choice))
      (s.atts.altLists.filter (fun kv => kv.1 != choice))

/-- The state of `Choice(choices=['a','b'])` freshly bound to an instance:
value is the default 'a', notification enabled, `allowInvalid` off (Choice
default), no notifications delivered yet. -/
def choiceInitAB : ChoiceState :=
  { atts :=
    { choices := ["a", "b"], labels := [("a", "a"), ("b", "b")],
      altLists := [("a", []), ("b", [])], alternates := [],
      choiceEnabled := [("a", true), ("b", true)],
      defaultChoice := some "a" },
    propVal :=
    { value := some "a", notifEnabled := true, allowInvalid := false,
      valueNotifies := 0 } }

/-- C7: removing the current choice 'a' from `Choice(choices=['a','b'])`
reassigns the value to the remaining choice 'b' (the new default), and
exactly one value-change notification fires. -/
theorem choice_remove_current_reassigns :
    (removeChoice choiceInitAB "a").map
      (fun s => (s.atts.choices, s.propVal.value, s.propVal.valueNotifies,
        s.propVal.notifEnabled, s.propVal.allowInvalid)) =
    .ok (["b"], some "b", 1, true, false) := by
  rfl


/-! ## Scalar binding and synchronisation (src/props/bindable.py)

A world of scalar `PropertyValue` containers, identified by their index.
The id-keyed `WeakValueDictionary` objects `boundPropVals` /
`boundAttPropVals` of `_bindPropVals` are embedded as the lists of partner
ids in insertion order (the dict `.values()` traversed by
`_buildBPVList`).

The container class itself (module `properties_value`) is absent from
src/, so the following parts are modelled from the spec:

* `PropertyValue.set` (spec 4.2): cast (identity for a scalar), validate
  against the minval/maxval attributes, abort with ValueError when invalid
  and `allowInvalid` is off, no-op when the value is unchanged under the
  container equality (spec section 8, idempotence), otherwise store and -
  when notification is enabled - notify.
* `PropertyValue.notify` is interception target of bindable's `_notify`;
  the original notify (`_orig_notify`) fires the container's listeners only
  when notification is enabled.  `notifyCount` counts those deliveries.
* container equality (`self == bpv` in `_sync`, spec 4.5 step 3) compares
  the current values. -/

/-- A scalar boxed property value.  `bound` and `attBound` are the
partner-id lists of `boundPropVals` / `boundAttPropVals`. -/
structure PropertyValue where
  value : Int
  minval : Option Int
  maxval : Option Int
  valid : Bool
  allowInvalid : Bool
  notifEnabled : Bool
  syncing : Bool
  bound : List Nat
  attBound : List Nat
  notifyCount : Nat
deriving DecidableEq

/-- The container a dangling id refers to: a fresh, unbound container. -/
def pvDefault : PropertyValue :=
  ⟨0, none, none, true, true, true, false, [], [], 0⟩

/-- A world of containers; ids are list indices. -/
abbrev World := List PropertyValue

def pvGet (w : World) (i : Nat) : PropertyValue :=
  w.getD i pvDefault

/-- Modelled from the spec: scalar validation against the minval/maxval
constraint attributes (a `Number`-style property). -/
def pvValidVal (pv : PropertyValue) (x : Int) : Bool :=
  (match pv.minval with | some m => decide (m ≤ x) | none => true) &&
  (match pv.maxval with | some m => decide (x ≤ m) | none => true)

/-- Modelled from the spec: the store step of `PropertyValue.set` - record
the value and its validity. -/
def pvStore (w : World) (i : Nat) (x : Int) : World :=
  w.set i { pvGet w i with value := x, valid := pvValidVal (pvGet w i) x }

/-- Modelled from the spec: `PropertyValue._orig_notify`, the original
(pre-interception) notify - deliver a notification to the container's own
listeners when notification is enabled. -/
def origNotify (w : World) (i : Nat) : World :=
  let pv := pvGet w i
  if pv.notifEnabled then
    w.set i { pv with notifyCount := pv.notifyCount + 1 }
  else w

mutual
/-- Function `_buildBPVList` (bindable.py lines 527-580): depth-first search through
the network of bound containers, filtering out `self` and containers
already in the visited set `bpvSet`, appending the new frontier to the
visited set before recursing into it.  Returns the reached containers in
order, the direct parent of each, and the final visited set.  The `fuel`
parameter of the embedding bounds the size of the recursion tree: one unit
is consumed by every call, and a container whose whole frontier is already
visited gives the same result at any fuel (including zero), so any fuel
from the recursion-tree size up yields the result of the source's
unbounded recursion; `pvSync` supplies `syncFuel`, which dominates that
size because every container joins the visited set at most once (the
at-most-once theorem for C2). -/
def buildBPVList (w : World) (selfId : Nat) (att : Bool) (fuel : Nat)
    (node : Nat) (bpvSet : List Nat) : List Nat × List Nat × List Nat :=
  match fuel with
  | 0 => ([], [], bpvSet)
  | Nat.succ f =>
    let bnd := if att then (pvGet w node).attBound else (pvGet w node).bound
    let bpvs := bnd.filter (fun b => b != selfId && !(bpvSet.contains b))
    let res := buildChildren w selfId att f bpvs (bpvSet ++ bpvs)
    (bpvs ++ res.1, List.replicate bpvs.length node ++ res.2.1, res.2.2)

/-- The `for bpv in bpvs:` recursion of `_buildBPVList` (bindable.py lines
574-578), threading the shared visited set through the siblings. -/
def buildChildren (w : World) (selfId : Nat) (att : Bool) (fuel : Nat)
    (todo : List Nat) (bpvSet : List Nat) : List Nat × List Nat × List Nat :=
  match fuel with
  | 0 => ([], [], bpvSet)
  | Nat.succ f =>
    match todo with
    | [] => ([], [], bpvSet)
    | b :: rest =>
      let r1 := buildBPVList w selfId att f b bpvSet
      let r2 := buildChildren w selfId att f rest r1.2.2
      (r1.1 ++ r2.1, r1.2.1 ++ r2.2.1, r2.2.2)
end

/-- Fuel dominating the size of the `_buildBPVList` recursion tree on `w`:
every container is visited at most once and every visit walks one bound
list. -/
def syncFuel (w : World) : Nat :=
  2 * (w.length + (w.map (fun pv => pv.bound.length + pv.attBound.length)).sum)
    + 2

/-- Function `_sync` (bindable.py lines 583-667) for scalar containers and value
(not attribute) propagation: guarded by the `_syncing` re-entrancy flag,
builds the list of transitively bound containers, then for each one whose
value differs from the source (`self == bpv` is the container equality on
values) sets its `_syncing` flag, disables its notification, forces
`allowInvalid`, copies the source value across (with notification disabled,
`bpv.set(self.get())` reduces to the store step), restores the saved
states, and records it as changed. -/
def pvSync (w : World) (selfId : Nat) : World × List Nat :=
  if (pvGet w selfId).syncing then (w, [])
  else
    let bpvs := (buildBPVList w selfId false (syncFuel w) selfId []).1
    bpvs.foldl
      (fun (acc : World × List Nat) bpv =>
        if (pvGet acc.1 selfId).value == (pvGet acc.1 bpv).value then acc
        else
          let pv := pvGet acc.1 bpv
          let w2 := acc.1.set bpv
            { pv with syncing := true, notifEnabled := false,
                      allowInvalid := true }
          let w3 := pvStore w2 bpv (pvGet w2 selfId).value
          let w4 := w3.set bpv
            { pvGet w3 bpv with syncing := false,
                                notifEnabled := pv.notifEnabled,
                                allowInvalid := pv.allowInvalid }
          (w4, acc.2 ++ [bpv]))
      (w, [])

/-- Function `_notify` (bindable.py lines 670-707) for scalar containers:
synchronise all bound containers, call the original notify on the source,
then the original notify on every changed container. -/
def pvNotify (w : World) (i : Nat) : World :=
  let r := pvSync w i
  let w2 := origNotify r.1 i
  r.2.foldl (fun ww b => origNotify ww b) w2

/-- Modelled from the spec: the mutation path of `PropertyValue.set` after
the validity gate - no-op on an unchanged value, otherwise store and (when
notification is enabled) notify. -/
def pvSetRaw (w : World) (i : Nat) (x : Int) : World :=
  if (pvGet w i).value == x then w
  else
    let w1 := pvStore w i x
    if (pvGet w1 i).notifEnabled then pvNotify w1 i else w1

/-- Modelled from the spec: `PropertyValue.set` - a write with an invalid
value fails with ValueError when `allowInvalid` is off, otherwise proceeds
through `pvSetRaw`. -/
def pvSet (w : World) (i : Nat) (x : Int) : Except String World :=
  if !(pvValidVal (pvGet w i) x) && !(pvGet w i).allowInvalid then
    .error "ValueError"
  else .ok (pvSetRaw w i x)

/-- Insertion into the id-keyed `WeakValueDictionary`
(`myBoundPropVals[id(other)] = other`), abstracted to the partner-id
list: re-inserting an existing key leaves the dict unchanged. -/
def boundInsert (l : List Nat) (j : Nat) : List Nat :=
  if l.contains j then l else l ++ [j]

/-- Operation `myBoundPropVals.pop(id(other))`: fails with KeyError when the edge is
absent. -/
def boundPop (l : List Nat) (j : Nat) : Except String (List Nat) :=
  if l.contains j then .ok (l.erase j) else .error "KeyError"

/-- The value-edge half of `_bindPropVals` (bindable.py lines 363-369). -/
def bindValEdges (w : World) (mineId otherId : Nat) (unbind : Bool) :
    Except String World :=
  if unbind then
    match boundPop (pvGet w mineId).bound otherId with
    | .error e => .error e
    | .ok mb =>
      let w1 := w.set mineId { pvGet w mineId with bound := mb }
      match boundPop (pvGet w1 otherId).bound mineId with
      | .error e => .error e
      | .ok ob => .ok (w1.set otherId { pvGet w1 otherId with bound := ob })
  else
    let w1 := w.set mineId
      { pvGet w mineId with bound := boundInsert (pvGet w mineId).bound otherId }
    .ok (w1.set otherId
      { pvGet w1 otherId with bound := boundInsert (pvGet w1 otherId).bound mineId })

/-- The attribute-edge half of `_bindPropVals` (bindable.py lines
371-377). -/
def bindAttEdges (w : World) (mineId otherId : Nat) (unbind : Bool) :
    Except String World :=
  if unbind then
    match boundPop (pvGet w mineId).attBound otherId with
    | .error e => .error e
    | .ok mb =>
      let w1 := w.set mineId { pvGet w mineId with attBound := mb }
      match boundPop (pvGet w1 otherId).attBound mineId with
      | .error e => .error e
      | .ok ob => .ok (w1.set otherId { pvGet w1 otherId with attBound := ob })
  else
    let w1 := w.set mineId
      { pvGet w mineId with
        attBound := boundInsert (pvGet w mineId).attBound otherId }
    .ok (w1.set otherId
      { pvGet w1 otherId with
        attBound := boundInsert (pvGet w1 otherId).attBound mineId })

/-- Function `_bindPropVals` (bindable.py lines 322-389): register or remove the
value and/or attribute edges between two containers (the `_syncing` flag
initialisation is a field default here). -/
def bindPropVals (w : World) (mineId otherId : Nat)
    (val att unbind : Bool) : Except String World :=
  match (if val then bindValEdges w mineId otherId unbind else .ok w) with
  | .error e => .error e
  | .ok w1 => if att then bindAttEdges w1 mineId otherId unbind else .ok w1

/-- Function `_bindProps` (bindable.py lines 157-188) for scalar containers: when
binding, force `allowInvalid`, copy the attributes (when `bindatt`) and
the value (when `bindval`) of the other container across (the source calls
`myPropVal.set(...)` after forcing `allowInvalid(True)`, so the validity
gate cannot fire and the call is `pvSetRaw`), restore `allowInvalid`, then
register the edges. -/
def bindScalarProps (w : World) (mineId otherId : Nat)
    (bindval bindatt unbind : Bool) : Except String World :=
  if !unbind then
    let allow := (pvGet w mineId).allowInvalid
    let w1 := w.set mineId { pvGet w mineId with allowInvalid := true }
    let w2 := if bindatt then
        w1.set mineId
          { pvGet w1 mineId with minval := (pvGet w1 otherId).minval,
                                 maxval := (pvGet w1 otherId).maxval }
      else w1
    let w3 := if bindval then pvSetRaw w2 mineId (pvGet w2 otherId).value
      else w2
    let w4 := w3.set mineId { pvGet w3 mineId with allowInvalid := allow }
    bindPropVals w4 mineId otherId bindval bindatt unbind
  else
    bindPropVals w mineId otherId bindval bindatt unbind

/-- Function `bindProps` (bindable.py lines 61-118) for a scalar property: the two
descriptors must have the same type, then `_bindProps` runs.  A host is
embedded by its descriptor type tag and the id of its container for the
bound property. -/
def bindProps (w : World) (myType otherType : Nat) (mineId otherId : Nat)
    (bindval bindatt unbind : Bool) : Except String World :=
  if myType != otherType then
    .error "ValueError: Properties must be of the same type to be bound"
  else bindScalarProps w mineId otherId bindval bindatt unbind

/-- Function `unbindProps` (bindable.py lines 121-135). -/
def unbindProps (w : World) (myType otherType : Nat) (mineId otherId : Nat) :
    Except String World :=
  bindProps w myType otherType mineId otherId true true true


/-- A fresh pair of unbound containers holding `a` and `b` with shared
constraint attributes (the two hosts' property has the same descriptor
type). -/
def freshPair (a b : Int) (mn mx : Option Int) (ai0 ai1 : Bool) : World :=
  [⟨a, mn, mx, true, ai0, true, false, [], [], 0⟩,
   ⟨b, mn, mx, true, ai1, true, false, [], [], 0⟩]

/-- The shape `bindProps` leaves a pair of scalar containers in: mutually
bound for values and attributes, not syncing, notification enabled, and
holding equal values. -/
def boundPairConfig (w : World) : Bool :=
  w.length == 2 &&
  (pvGet w 0).bound == [1] && (pvGet w 1).bound == [0] &&
  (pvGet w 0).attBound == [1] && (pvGet w 1).attBound == [0] &&
  !(pvGet w 0).syncing && !(pvGet w 1).syncing &&
  (pvGet w 0).notifEnabled && (pvGet w 1).notifEnabled &&
  (pvGet w 0).value == (pvGet w 1).value

/-- The shape `unbindProps` leaves the pair in: no edges either way. -/
def unboundPairConfig (w : World) : Bool :=
  w.length == 2 &&
  (pvGet w 0).bound == [] && (pvGet w 1).bound == [] &&
  (pvGet w 0).attBound == [] && (pvGet w 1).attBound == [] &&
  !(pvGet w 0).syncing && !(pvGet w 1).syncing &&
  (pvGet w 0).notifEnabled && (pvGet w 1).notifEnabled

/-- Three fresh unconstrained containers all holding 0. -/
def tripleFresh : World :=
  [⟨0, none, none, true, true, true, false, [], [], 0⟩,
   ⟨0, none, none, true, true, true, false, [], [], 0⟩,
   ⟨0, none, none, true, true, true, false, [], [], 0⟩]

/-- The world after binding A-B, B-C, C-A on `tripleFresh`: a cycle of
value (and attribute) binding edges. -/
def cycleWorld : World :=
  [⟨0, none, none, true, true, true, false, [1, 2], [1, 2], 0⟩,
   ⟨0, none, none, true, true, true, false, [0, 2], [0, 2], 0⟩,
   ⟨0, none, none, true, true, true, false, [1, 0], [1, 0], 0⟩]

/-- The cycle world after `A.p = x` (for `x` different from the previous
common value 0): all three containers hold `x` and each container's
listeners were notified exactly once. -/
def cycleWorldAfter (x : Int) : World :=
  [⟨x, none, none, true, true, true, false, [1, 2], [1, 2], 1⟩,
   ⟨x, none, none, true, true, true, false, [0, 2], [0, 2], 1⟩,
   ⟨x, none, none, true, true, true, false, [1, 0], [1, 0], 1⟩]

theorem buildChildren_nil (w : World) (s : Nat) (att : Bool) (fuel : Nat)
    (set : List Nat) : buildChildren w s att fuel [] set = ([], [], set) := by
  cases fuel <;> rfl

theorem buildBPVList_frontier_empty (w : World) (s : Nat) (att : Bool)
    (node : Nat) (set : List Nat)
    (h : ((if att then (pvGet w node).attBound else (pvGet w node).bound)).filter
      (fun b => b != s && !(set.contains b)) = []) :
    ∀ fuel, buildBPVList w s att fuel node set = ([], [], set) := by
  intro fuel
  cases fuel with
  | zero => rfl
  | succ f =>
    simp only [buildBPVList]
    rw [h]
    simp [buildChildren_nil]

theorem buildChildren_all_empty (w : World) (s : Nat) (att : Bool) :
    ∀ (fuel : Nat) (todo : List Nat) (set : List Nat),
    (∀ b ∈ todo,
      ((if att then (pvGet w b).attBound else (pvGet w b).bound)).filter
        (fun c => c != s && !(set.contains c)) = []) →
    buildChildren w s att fuel todo set = ([], [], set) := by
  intro fuel
  induction fuel with
  | zero => intro todo set h; rfl
  | succ f ih =>
    intro todo set h
    cases todo with
    | nil => rfl
    | cons b rest =>
      have h1 := buildBPVList_frontier_empty w s att b set (h b (by simp)) f
      have h2 := ih rest set (fun c hc => h c (by simp [hc]))
      simp only [buildChildren]
      rw [h1]
      simpa using h2

/-- The traversal on a mutually bound pair: from container 0, exactly
container 1 is reached (with parent 0), at any fuel from 2 up. -/
theorem buildBPVList_pair (w : World)
    (h0 : (pvGet w 0).bound = [1]) (h1 : (pvGet w 1).bound = [0]) :
    ∀ fuel, 2 ≤ fuel →
    buildBPVList w 0 false fuel 0 [] = ([1], [0], [1]) := by
  intro fuel hf
  obtain ⟨f, rfl⟩ : ∃ f, fuel = f + 1 := by
    cases fuel with
    | zero => omega
    | succ n => exact ⟨n, rfl⟩
  have hfront : ((if false then (pvGet w 0).attBound else (pvGet w 0).bound)).filter
      (fun b => b != 0 && !(([] : List Nat).contains b)) = [1] := by
    simp [h0]
  have hchild : buildChildren w 0 false f [1] [1] = ([], [], [1]) := by
    apply buildChildren_all_empty
    intro b hb
    have : b = 1 := by simpa using hb
    subst this
    simp [h1]
  simp only [buildBPVList]
  rw [hfront]
  simp only [List.nil_append]
  rw [hchild]
  simp

/-- The traversal on the pair seen from container 1. -/
theorem buildBPVList_pair' (w : World)
    (h0 : (pvGet w 0).bound = [1]) (h1 : (pvGet w 1).bound = [0]) :
    ∀ fuel, 2 ≤ fuel →
    buildBPVList w 1 false fuel 1 [] = ([0], [1], [0]) := by
  intro fuel hf
  obtain ⟨f, rfl⟩ : ∃ f, fuel = f + 1 := by
    cases fuel with
    | zero => omega
    | succ n => exact ⟨n, rfl⟩
  have hfront : ((if false then (pvGet w 1).attBound else (pvGet w 1).bound)).filter
      (fun b => b != 1 && !(([] : List Nat).contains b)) = [0] := by
    simp [h1]
  have hchild : buildChildren w 1 false f [0] [0] = ([], [], [0]) := by
    apply buildChildren_all_empty
    intro b hb
    have : b = 0 := by simpa using hb
    subst this
    simp [h0]
  simp only [buildBPVList]
  rw [hfront]
  simp only [List.nil_append]
  rw [hchild]
  simp

/-- The traversal on the binding cycle A-B, B-C, C-A rooted at A: the two
frontier containers are reached once each, and the result is the same at
every fuel from 1 up - the visited set stops the recursion on the cycle
(no infinite loop). -/
theorem buildBPVList_cycle (w : World)
    (h0 : (pvGet w 0).bound = [1, 2]) (h1 : (pvGet w 1).bound = [0, 2])
    (h2 : (pvGet w 2).bound = [1, 0]) :
    ∀ fuel, 1 ≤ fuel →
    buildBPVList w 0 false fuel 0 [] = ([1, 2], [0, 0], [1, 2]) := by
  intro fuel hf
  obtain ⟨f, rfl⟩ : ∃ f, fuel = f + 1 := by
    cases fuel with
    | zero => omega
    | succ n => exact ⟨n, rfl⟩
  have hfront : ((if false then (pvGet w 0).attBound else (pvGet w 0).bound)).filter
      (fun b => b != 0 && !(([] : List Nat).contains b)) = [1, 2] := by
    simp [h0]
  have hchild : buildChildren w 0 false f [1, 2] [1, 2] = ([], [], [1, 2]) := by
    apply buildChildren_all_empty
    intro b hb
    rcases (by simpa using hb : b = 1 ∨ b = 2) with rfl | rfl
    · simp [h1]
    · simp [h2]
  simp only [buildBPVList]
  rw [hfront]
  simp only [List.nil_append]
  rw [hchild]
  simp

theorem pvGet_mem_or_default (w : World) (n : Nat) :
    pvGet w n ∈ w ∨ pvGet w n = pvDefault := by
  unfold pvGet
  rcases h : w[n]? with _ | pv
  · right
    simp [List.getD, h]
  · left
    have : w.getD n pvDefault = pv := by simp [List.getD, h]
    rw [this]
    exact List.getElem?_mem h

/-- The at-most-once property of `_buildBPVList`: with duplicate-free bound
lists (the dicts guarantee this in the source), the list of reached
containers has no duplicates, none of them was already visited, and the
final visited set is the input visited set extended by exactly the reached
containers. -/
theorem buildBPVList_at_most_once (w : World) (selfId : Nat) (att : Bool)
    (hw : ∀ pv ∈ w, pv.bound.Nodup ∧ pv.attBound.Nodup) :
    ∀ fuel,
    (∀ (node : Nat) (visited : List Nat), visited.Nodup →
      (buildBPVList w selfId att fuel node visited).1.Nodup ∧
      (∀ b ∈ (buildBPVList w selfId att fuel node visited).1, b ∉ visited) ∧
      (buildBPVList w selfId att fuel node visited).2.2 =
        visited ++ (buildBPVList w selfId att fuel node visited).1) ∧
    (∀ (todo : List Nat) (visited : List Nat), visited.Nodup →
      (buildChildren w selfId att fuel todo visited).1.Nodup ∧
      (∀ b ∈ (buildChildren w selfId att fuel todo visited).1, b ∉ visited) ∧
      (buildChildren w selfId att fuel todo visited).2.2 =
        visited ++ (buildChildren w selfId att fuel todo visited).1) := by
  have hbnd : ∀ n,
      ((if att then (pvGet w n).attBound else (pvGet w n).bound)).Nodup := by
    intro n
    rcases pvGet_mem_or_default w n with h | h
    · cases att
      · simpa using (hw _ h).1
      · simpa using (hw _ h).2
    · rw [h]
      cases att <;> simp [pvDefault]
  intro fuel
  induction fuel with
  | zero =>
    constructor
    · intro node visited hv
      refine ⟨List.nodup_nil, by simp [buildBPVList], by simp [buildBPVList]⟩
    · intro todo visited hv
      refine ⟨List.nodup_nil, by simp [buildChildren], by simp [buildChildren]⟩
  | succ f ih =>
    constructor
    · intro node visited hv
      simp only [buildBPVList]
      set bpvs := ((if att then (pvGet w node).attBound
          else (pvGet w node).bound)).filter
        (fun b => b != selfId && !(visited.contains b)) with hbpvs
      have hnodup : bpvs.Nodup := (hbnd node).filter _
      have hdisj : ∀ b ∈ bpvs, b ∉ visited := by
        intro b hb
        have := (List.mem_filter.mp hb).2
        simp only [Bool.and_eq_true, Bool.not_eq_true'] at this
        simpa using this.2
      have hv' : (visited ++ bpvs).Nodup :=
        List.Nodup.append hv hnodup (fun a ha hb => hdisj a hb ha)
      obtain ⟨hdn, hdv, hdf⟩ := ih.2 bpvs (visited ++ bpvs) hv'
      refine ⟨?_, ?_, ?_⟩
      · refine List.Nodup.append hnodup hdn ?_
        intro a ha hb
        exact hdv a hb (List.mem_append_right visited ha)
      · intro b hb
        rcases List.mem_append.mp hb with h | h
        · exact hdisj b h
        · intro hbv
          exact hdv b h (List.mem_append_left bpvs hbv)
      · rw [hdf, List.append_assoc]
    · intro todo visited hv
      cases todo with
      | nil =>
        refine ⟨List.nodup_nil, by simp [buildChildren], by simp [buildChildren]⟩
      | cons b rest =>
        simp only [buildChildren]
        obtain ⟨h1n, h1v, h1f⟩ := ih.1 b visited hv
        set r1 := buildBPVList w selfId att f b visited with hr1
        have hv1 : r1.2.2.Nodup := by
          rw [h1f]
          exact List.Nodup.append hv h1n (fun a ha hb => h1v a hb ha)
        obtain ⟨h2n, h2v, h2f⟩ := ih.2 rest r1.2.2 hv1
        set r2 := buildChildren w selfId att f rest r1.2.2 with hr2
        refine ⟨?_, ?_, ?_⟩
        · refine List.Nodup.append h1n h2n ?_
          intro a ha hb
          exact h2v a hb (h1f ▸ List.mem_append_right visited ha)
        · intro c hc
          rcases List.mem_append.mp hc with h | h
          · exact h1v c h
          · intro hcv
            exact h2v c h (h1f ▸ List.mem_append_left r1.1 hcv)
        · rw [h2f, h1f, List.append_assoc]


@[simp]
theorem pvGet_cons_zero (p : PropertyValue) (rest : World) :
    pvGet (p :: rest) 0 = p := rfl

@[simp]
theorem pvGet_cons_succ (p : PropertyValue) (rest : World) (n : Nat) :
    pvGet (p :: rest) (n + 1) = pvGet rest n := rfl

theorem syncFuel_ge_two (w : World) : 2 ≤ syncFuel w := by
  unfold syncFuel
  omega

theorem pvValidVal_eq_of_minmax (p q : PropertyValue) (x : Int)
    (h1 : p.minval = q.minval) (h2 : p.maxval = q.maxval) :
    pvValidVal p x = pvValidVal q x := by
  unfold pvValidVal
  rw [h1, h2]

/-- Synchronisation across a bound pair, write on container 0: the value is
stored, copied to container 1, and each container's listeners are notified
once. -/
theorem pvSet_pair_syncs_left (v0 x : Int) (mn0 mx0 mn1 mx1 : Option Int)
    (vd0 vd1 ai0 ai1 : Bool) (ab0 ab1 : List Nat) (n0 n1 : Nat)
    (hx0 : pvValidVal ⟨v0, mn0, mx0, vd0, ai0, true, false, [1], ab0, n0⟩ x = true)
    (hx1 : pvValidVal ⟨v0, mn1, mx1, vd1, ai1, true, false, [0], ab1, n1⟩ x = true)
    (hne : (v0 == x) = false) :
    pvSet [⟨v0, mn0, mx0, vd0, ai0, true, false, [1], ab0, n0⟩,
           ⟨v0, mn1, mx1, vd1, ai1, true, false, [0], ab1, n1⟩] 0 x =
      .ok [⟨x, mn0, mx0, true, ai0, true, false, [1], ab0, n0 + 1⟩,
           ⟨x, mn1, mx1, true, ai1, true, false, [0], ab1, n1 + 1⟩] := by
  have hxv : (x == v0) = false := by
    simp only [beq_eq_false_iff_ne] at hne ⊢
    exact Ne.symm hne
  have hxv' : ¬ x = v0 := by simpa using hxv
  have hx1' : pvValidVal ⟨v0, mn1, mx1, vd1, true, false, true, [0], ab1, n1⟩ x
      = true := by
    rw [pvValidVal_eq_of_minmax ⟨v0, mn1, mx1, vd1, true, false, true, [0], ab1, n1⟩
      ⟨v0, mn1, mx1, vd1, ai1, true, false, [0], ab1, n1⟩ x rfl rfl]
    exact hx1
  have hsync :
      pvSync [⟨x, mn0, mx0, true, ai0, true, false, [1], ab0, n0⟩,
              ⟨v0, mn1, mx1, vd1, ai1, true, false, [0], ab1, n1⟩] 0 =
      ([⟨x, mn0, mx0, true, ai0, true, false, [1], ab0, n0⟩,
        ⟨x, mn1, mx1, true, ai1, true, false, [0], ab1, n1⟩], [1]) := by
    have hb := buildBPVList_pair
      [⟨x, mn0, mx0, true, ai0, true, false, [1], ab0, n0⟩,
       ⟨v0, mn1, mx1, vd1, ai1, true, false, [0], ab1, n1⟩]
      rfl rfl
      (syncFuel [⟨x, mn0, mx0, true, ai0, true, false, [1], ab0, n0⟩,
       ⟨v0, mn1, mx1, vd1, ai1, true, false, [0], ab1, n1⟩])
      (syncFuel_ge_two _)
    unfold pvSync
    rw [hb]
    simp [pvStore, hxv, hxv', hx1']
  unfold pvSet pvSetRaw
  simp only [pvGet_cons_zero]
  rw [hx0]
  simp only [Bool.not_true, Bool.false_and]
  rw [if_neg (by simp)]
  rw [if_neg (by simp [hne])]
  have hstore : pvStore
      [⟨v0, mn0, mx0, vd0, ai0, true, false, [1], ab0, n0⟩,
       ⟨v0, mn1, mx1, vd1, ai1, true, false, [0], ab1, n1⟩] 0 x =
      [⟨x, mn0, mx0, true, ai0, true, false, [1], ab0, n0⟩,
       ⟨v0, mn1, mx1, vd1, ai1, true, false, [0], ab1, n1⟩] := by
    unfold pvStore
    simp [hx0]
  rw [hstore]
  simp [pvNotify, hsync, origNotify]

/-- Synchronisation across a bound pair, write on container 1 (the mirror
image of `pvSet_pair_syncs_left`). -/
theorem pvSet_pair_syncs_right (v0 y : Int) (mn0 mx0 mn1 mx1 : Option Int)
    (vd0 vd1 ai0 ai1 : Bool) (ab0 ab1 : List Nat) (n0 n1 : Nat)
    (hy0 : pvValidVal ⟨v0, mn0, mx0, vd0, ai0, true, false, [1], ab0, n0⟩ y = true)
    (hy1 : pvValidVal ⟨v0, mn1, mx1, vd1, ai1, true, false, [0], ab1, n1⟩ y = true)
    (hne : (v0 == y) = false) :
    pvSet [⟨v0, mn0, mx0, vd0, ai0, true, false, [1], ab0, n0⟩,
           ⟨v0, mn1, mx1, vd1, ai1, true, false, [0], ab1, n1⟩] 1 y =
      .ok [⟨y, mn0, mx0, true, ai0, true, false, [1], ab0, n0 + 1⟩,
           ⟨y, mn1, mx1, true, ai1, true, false, [0], ab1, n1 + 1⟩] := by
  have hyv : (y == v0) = false := by
    simp only [beq_eq_false_iff_ne] at hne ⊢
    exact Ne.symm hne
  have hyv' : ¬ y = v0 := by simpa using hyv
  have hy0' : pvValidVal ⟨v0, mn0, mx0, vd0, true, false, true, [1], ab0, n0⟩ y
      = true := by
    rw [pvValidVal_eq_of_minmax ⟨v0, mn0, mx0, vd0, true, false, true, [1], ab0, n0⟩
      ⟨v0, mn0, mx0, vd0, ai0, true, false, [1], ab0, n0⟩ y rfl rfl]
    exact hy0
  have hsync :
      pvSync [⟨v0, mn0, mx0, vd0, ai0, true, false, [1], ab0, n0⟩,
              ⟨y, mn1, mx1, true, ai1, true, false, [0], ab1, n1⟩] 1 =
      ([⟨y, mn0, mx0, true, ai0, true, false, [1], ab0, n0⟩,
        ⟨y, mn1, mx1, true, ai1, true, false, [0], ab1, n1⟩], [0]) := by
    have hb := buildBPVList_pair'
      [⟨v0, mn0, mx0, vd0, ai0, true, false, [1], ab0, n0⟩,
       ⟨y, mn1, mx1, true, ai1, true, false, [0], ab1, n1⟩]
      rfl rfl
      (syncFuel [⟨v0, mn0, mx0, vd0, ai0, true, false, [1], ab0, n0⟩,
       ⟨y, mn1, mx1, true, ai1, true, false, [0], ab1, n1⟩])
      (syncFuel_ge_two _)
    unfold pvSync
    rw [hb]
    simp [pvStore, hyv, hyv', hy0']
  unfold pvSet pvSetRaw
  simp only [pvGet_cons_zero, pvGet_cons_succ]
  rw [hy1]
  simp only [Bool.not_true, Bool.false_and]
  rw [if_neg (by simp)]
  rw [if_neg (by simp [hne])]
  have hstore : pvStore
      [⟨v0, mn0, mx0, vd0, ai0, true, false, [1], ab0, n0⟩,
       ⟨v0, mn1, mx1, vd1, ai1, true, false, [0], ab1, n1⟩] 1 y =
      [⟨v0, mn0, mx0, vd0, ai0, true, false, [1], ab0, n0⟩,
       ⟨y, mn1, mx1, true, ai1, true, false, [0], ab1, n1⟩] := by
    unfold pvStore
    simp [hy1]
  rw [hstore]
  simp [pvNotify, hsync, origNotify]

/-- A write on an unbound container propagates nowhere: only the written
container changes and only its own listeners are notified. -/
theorem pvSet_unbound_left (v0 v1 x : Int) (mn0 mx0 mn1 mx1 : Option Int)
    (vd0 vd1 ai0 ai1 : Bool) (ab0 ab1 : List Nat) (n0 n1 : Nat)
    (hx0 : pvValidVal ⟨v0, mn0, mx0, vd0, ai0, true, false, [], ab0, n0⟩ x = true)
    (hne : (v0 == x) = false) :
    pvSet [⟨v0, mn0, mx0, vd0, ai0, true, false, [], ab0, n0⟩,
           ⟨v1, mn1, mx1, vd1, ai1, true, false, [], ab1, n1⟩] 0 x =
      .ok [⟨x, mn0, mx0, true, ai0, true, false, [], ab0, n0 + 1⟩,
           ⟨v1, mn1, mx1, vd1, ai1, true, false, [], ab1, n1⟩] := by
  have hsync :
      pvSync [⟨x, mn0, mx0, true, ai0, true, false, [], ab0, n0⟩,
              ⟨v1, mn1, mx1, vd1, ai1, true, false, [], ab1, n1⟩] 0 =
      ([⟨x, mn0, mx0, true, ai0, true, false, [], ab0, n0⟩,
        ⟨v1, mn1, mx1, vd1, ai1, true, false, [], ab1, n1⟩], []) := by
    have hb := buildBPVList_frontier_empty
      [⟨x, mn0, mx0, true, ai0, true, false, [], ab0, n0⟩,
       ⟨v1, mn1, mx1, vd1, ai1, true, false, [], ab1, n1⟩]
      0 false 0 [] (by simp)
      (syncFuel [⟨x, mn0, mx0, true, ai0, true, false, [], ab0, n0⟩,
       ⟨v1, mn1, mx1, vd1, ai1, true, false, [], ab1, n1⟩])
    unfold pvSync
    rw [hb]
    simp
  unfold pvSet pvSetRaw
  simp only [pvGet_cons_zero]
  rw [hx0]
  simp only [Bool.not_true, Bool.false_and]
  rw [if_neg (by simp)]
  rw [if_neg (by simp [hne])]
  have hstore : pvStore
      [⟨v0, mn0, mx0, vd0, ai0, true, false, [], ab0, n0⟩,
       ⟨v1, mn1, mx1, vd1, ai1, true, false, [], ab1, n1⟩] 0 x =
      [⟨x, mn0, mx0, true, ai0, true, false, [], ab0, n0⟩,
       ⟨v1, mn1, mx1, vd1, ai1, true, false, [], ab1, n1⟩] := by
    unfold pvStore
    simp [hx0]
  rw [hstore]
  simp [pvNotify, hsync, origNotify]

/-- The mirror image of `pvSet_unbound_left`: a write on unbound container
1 leaves container 0 untouched. -/
theorem pvSet_unbound_right (v0 v1 y : Int) (mn0 mx0 mn1 mx1 : Option Int)
    (vd0 vd1 ai0 ai1 : Bool) (ab0 ab1 : List Nat) (n0 n1 : Nat)
    (hy1 : pvValidVal ⟨v1, mn1, mx1, vd1, ai1, true, false, [], ab1, n1⟩ y = true)
    (hne : (v1 == y) = false) :
    pvSet [⟨v0, mn0, mx0, vd0, ai0, true, false, [], ab0, n0⟩,
           ⟨v1, mn1, mx1, vd1, ai1, true, false, [], ab1, n1⟩] 1 y =
      .ok [⟨v0, mn0, mx0, vd0, ai0, true, false, [], ab0, n0⟩,
           ⟨y, mn1, mx1, true, ai1, true, false, [], ab1, n1 + 1⟩] := by
  have hsync :
      pvSync [⟨v0, mn0, mx0, vd0, ai0, true, false, [], ab0, n0⟩,
              ⟨y, mn1, mx1, true, ai1, true, false, [], ab1, n1⟩] 1 =
      ([⟨v0, mn0, mx0, vd0, ai0, true, false, [], ab0, n0⟩,
        ⟨y, mn1, mx1, true, ai1, true, false, [], ab1, n1⟩], []) := by
    have hb := buildBPVList_frontier_empty
      [⟨v0, mn0, mx0, vd0, ai0, true, false, [], ab0, n0⟩,
       ⟨y, mn1, mx1, true, ai1, true, false, [], ab1, n1⟩]
      1 false 1 [] (by simp)
      (syncFuel [⟨v0, mn0, mx0, vd0, ai0, true, false, [], ab0, n0⟩,
       ⟨y, mn1, mx1, true, ai1, true, false, [], ab1, n1⟩])
    unfold pvSync
    rw [hb]
    simp
  unfold pvSet pvSetRaw
  simp only [pvGet_cons_zero, pvGet_cons_succ]
  rw [hy1]
  simp only [Bool.not_true, Bool.false_and]
  rw [if_neg (by simp)]
  rw [if_neg (by simp [hne])]
  have hstore : pvStore
      [⟨v0, mn0, mx0, vd0, ai0, true, false, [], ab0, n0⟩,
       ⟨v1, mn1, mx1, vd1, ai1, true, false, [], ab1, n1⟩] 1 y =
      [⟨v0, mn0, mx0, vd0, ai0, true, false, [], ab0, n0⟩,
       ⟨y, mn1, mx1, true, ai1, true, false, [], ab1, n1⟩] := by
    unfold pvStore
    simp [hy1]
  rw [hstore]
  simp [pvNotify, hsync, origNotify]

theorem world_pair_shape {w : World} (h : w.length = 2) :
    ∃ p0 p1, w = [p0, p1] := by
  cases w with
  | nil => simp at h
  | cons a t =>
    cases t with
    | nil => simp at h
    | cons b t2 =>
      cases t2 with
      | nil => exact ⟨a, b, rfl⟩
      | cons c t3 => simp at h

/-- Binding on a fresh pair: `bindProps` on a fresh pair of scalar containers of the same descriptor
type: the bind succeeds, copies container 1's value onto container 0, and
leaves the pair in the mutually bound configuration. -/
theorem bindProps_freshPair (a b : Int) (mn mx : Option Int)
    (ai0 ai1 : Bool) (t : Nat) :
    ∃ w1, bindProps (freshPair a b mn mx ai0 ai1) t t 0 1 true true false =
        .ok w1 ∧
      boundPairConfig w1 = true ∧
      (pvGet w1 0).value = b ∧ (pvGet w1 1).value = b := by
  by_cases hab : a = b
  · subst hab
    refine ⟨[⟨a, mn, mx, true, ai0, true, false, [1], [1], 0⟩,
             ⟨a, mn, mx, true, ai1, true, false, [0], [0], 0⟩], ?_, ?_, rfl, rfl⟩
    · unfold bindProps bindScalarProps bindPropVals bindValEdges bindAttEdges
        freshPair pvSetRaw boundInsert
      simp
    · simp [boundPairConfig]
  · have hne : (a == b) = false := by simpa using hab
    refine ⟨[⟨b, mn, mx,
        pvValidVal ⟨a, mn, mx, true, true, true, false, [], [], 0⟩ b,
        ai0, true, false, [1], [1], 1⟩,
      ⟨b, mn, mx, true, ai1, true, false, [0], [0], 0⟩], ?_, ?_, rfl, rfl⟩
    · have hsync :
          pvSync [⟨b, mn, mx,
              pvValidVal ⟨a, mn, mx, true, true, true, false, [], [], 0⟩ b,
              true, true, false, [], [], 0⟩,
            ⟨b, mn, mx, true, ai1, true, false, [], [], 0⟩] 0 =
          ([⟨b, mn, mx,
              pvValidVal ⟨a, mn, mx, true, true, true, false, [], [], 0⟩ b,
              true, true, false, [], [], 0⟩,
            ⟨b, mn, mx, true, ai1, true, false, [], [], 0⟩], []) := by
        have hfe := buildBPVList_frontier_empty
          [⟨b, mn, mx,
              pvValidVal ⟨a, mn, mx, true, true, true, false, [], [], 0⟩ b,
              true, true, false, [], [], 0⟩,
            ⟨b, mn, mx, true, ai1, true, false, [], [], 0⟩]
          0 false 0 [] (by simp)
          (syncFuel [⟨b, mn, mx,
              pvValidVal ⟨a, mn, mx, true, true, true, false, [], [], 0⟩ b,
              true, true, false, [], [], 0⟩,
            ⟨b, mn, mx, true, ai1, true, false, [], [], 0⟩])
        unfold pvSync
        rw [hfe]
        simp
      have hstore : pvStore
          [⟨a, mn, mx, true, true, true, false, [], [], 0⟩,
           ⟨b, mn, mx, true, ai1, true, false, [], [], 0⟩] 0 b =
          [⟨b, mn, mx,
              pvValidVal ⟨a, mn, mx, true, true, true, false, [], [], 0⟩ b,
              true, true, false, [], [], 0⟩,
           ⟨b, mn, mx, true, ai1, true, false, [], [], 0⟩] := by
        unfold pvStore
        simp
      have hset : pvSetRaw
          [⟨a, mn, mx, true, true, true, false, [], [], 0⟩,
           ⟨b, mn, mx, true, ai1, true, false, [], [], 0⟩] 0 b =
          [⟨b, mn, mx,
              pvValidVal ⟨a, mn, mx, true, true, true, false, [], [], 0⟩ b,
              true, true, false, [], [], 1⟩,
           ⟨b, mn, mx, true, ai1, true, false, [], [], 0⟩] := by
        unfold pvSetRaw
        simp only [pvGet_cons_zero]
        rw [if_neg (by simp [hne])]
        rw [hstore]
        simp [pvNotify, hsync, origNotify]
      unfold bindProps bindScalarProps bindPropVals bindValEdges bindAttEdges
        boundInsert freshPair
      simp only [pvGet_cons_zero, pvGet_cons_succ, bne_self_eq_false,
        Bool.false_eq_true, if_false, Bool.not_false, if_true,
        List.set_cons_zero, List.set_cons_succ]
      rw [hset]
      simp
    · simp [boundPairConfig]

/-- Unbinding a bound pair: `unbindProps` on a mutually bound pair removes both the value and the
attribute edges in both directions and touches nothing else. -/
theorem unbindProps_pair (v0 v1 : Int) (mn0 mx0 mn1 mx1 : Option Int)
    (vd0 vd1 ai0 ai1 : Bool) (n0 n1 : Nat) (t : Nat) :
    unbindProps [⟨v0, mn0, mx0, vd0, ai0, true, false, [1], [1], n0⟩,
                 ⟨v1, mn1, mx1, vd1, ai1, true, false, [0], [0], n1⟩] t t 0 1 =
      .ok [⟨v0, mn0, mx0, vd0, ai0, true, false, [], [], n0⟩,
           ⟨v1, mn1, mx1, vd1, ai1, true, false, [], [], n1⟩] := by
  unfold unbindProps bindProps bindScalarProps bindPropVals bindValEdges
    bindAttEdges boundPop
  simp

/-- C1: for two hosts with a same-typed scalar property, `bindProps`
succeeds and leaves the two containers mutually bound holding container
1's value; in that configuration every assignment to either container (of
a value valid on both) makes the other container hold the same value and
preserves the configuration (so the round trip holds for every subsequent
assignment); `unbindProps` removes the edges, after which an assignment to
either container leaves the other container's value unchanged. -/
theorem bindProps_round_trip
    (a b x y x2 y2 : Int) (mn mx : Option Int) (ai0 ai1 : Bool) (t : Nat)
    (w wu : World)
    (hb : boundPairConfig w = true)
    (hx : pvValidVal (pvGet w 0) x = true ∧ pvValidVal (pvGet w 1) x = true)
    (hy : pvValidVal (pvGet w 0) y = true ∧ pvValidVal (pvGet w 1) y = true)
    (hu : unboundPairConfig wu = true)
    (hx2 : pvValidVal (pvGet wu 0) x2 = true)
    (hy2 : pvValidVal (pvGet wu 1) y2 = true) :
    (∃ w1, bindProps (freshPair a b mn mx ai0 ai1) t t 0 1 true true false =
        .ok w1 ∧ boundPairConfig w1 = true ∧
        (pvGet w1 0).value = b ∧ (pvGet w1 1).value = b) ∧
    (∃ w', pvSet w 0 x = .ok w' ∧ (pvGet w' 0).value = x ∧
      (pvGet w' 1).value = x ∧ boundPairConfig w' = true) ∧
    (∃ w', pvSet w 1 y = .ok w' ∧ (pvGet w' 0).value = y ∧
      (pvGet w' 1).value = y ∧ boundPairConfig w' = true) ∧
    (∃ w', unbindProps w t t 0 1 = .ok w' ∧ unboundPairConfig w' = true ∧
      (pvGet w' 0).value = (pvGet w 0).value ∧
      (pvGet w' 1).value = (pvGet w 1).value) ∧
    (∃ w', pvSet wu 0 x2 = .ok w' ∧ (pvGet w' 0).value = x2 ∧
      (pvGet w' 1).value = (pvGet wu 1).value ∧
      unboundPairConfig w' = true) ∧
    (∃ w', pvSet wu 1 y2 = .ok w' ∧ (pvGet w' 1).value = y2 ∧
      (pvGet w' 0).value = (pvGet wu 0).value ∧
      unboundPairConfig w' = true) := by
  -- decompose the bound-pair world
  have hb' := hb
  rw [boundPairConfig] at hb'
  simp only [Bool.and_eq_true, beq_iff_eq, Bool.not_eq_true'] at hb'
  obtain ⟨⟨⟨⟨⟨⟨⟨⟨⟨hlen, hbd0⟩, hbd1⟩, hab0⟩, hab1⟩, hsy0⟩, hsy1⟩, hnf0⟩,
    hnf1⟩, hveq⟩ := hb'
  obtain ⟨p0, p1, rfl⟩ := world_pair_shape hlen
  obtain ⟨v0, mn0, mx0, vd0, a0, nf0, sy0, bd0, ab0, n0⟩ := p0
  obtain ⟨v1, mn1, mx1, vd1, a1, nf1, sy1, bd1, ab1, n1⟩ := p1
  simp only [pvGet_cons_zero, pvGet_cons_succ] at hbd0 hbd1 hab0 hab1 hsy0 hsy1 hnf0 hnf1 hveq hx hy hb
  subst hbd0
  subst hbd1
  subst hab0
  subst hab1
  subst hsy0
  subst hsy1
  subst hnf0
  subst hnf1
  subst hveq
  -- decompose the unbound-pair world
  have hu' := hu
  rw [unboundPairConfig] at hu'
  simp only [Bool.and_eq_true, beq_iff_eq, Bool.not_eq_true'] at hu'
  obtain ⟨⟨⟨⟨⟨⟨⟨⟨hulen, hubd0⟩, hubd1⟩, huab0⟩, huab1⟩, husy0⟩, husy1⟩,
    hunf0⟩, hunf1⟩ := hu'
  obtain ⟨q0, q1, rfl⟩ := world_pair_shape hulen
  obtain ⟨u0, umn0, umx0, uvd0, ua0, unf0, usy0, ubd0, uab0, un0⟩ := q0
  obtain ⟨u1, umn1, umx1, uvd1, ua1, unf1, usy1, ubd1, uab1, un1⟩ := q1
  simp only [pvGet_cons_zero, pvGet_cons_succ] at hubd0 hubd1 huab0 huab1 husy0 husy1 hunf0 hunf1 hx2 hy2 hu
  subst hubd0
  subst hubd1
  subst huab0
  subst huab1
  subst husy0
  subst husy1
  subst hunf0
  subst hunf1
  refine ⟨bindProps_freshPair a b mn mx ai0 ai1 t, ?_, ?_, ?_, ?_, ?_⟩
  · -- bound pair, write on 0
    by_cases hvx : v0 = x
    · subst hvx
      refine ⟨[⟨v0, mn0, mx0, vd0, a0, true, false, [1], [1], n0⟩,
        ⟨v0, mn1, mx1, vd1, a1, true, false, [0], [0], n1⟩], ?_, rfl, rfl, hb⟩
      unfold pvSet pvSetRaw
      simp only [pvGet_cons_zero]
      rw [hx.1]
      simp
    · have hne : (v0 == x) = false := by simpa using hvx
      exact ⟨_, pvSet_pair_syncs_left v0 x mn0 mx0 mn1 mx1 vd0 vd1 a0 a1
        [1] [0] n0 n1 hx.1 hx.2 hne, rfl, rfl, by simp [boundPairConfig]⟩
  · -- bound pair, write on 1
    by_cases hvy : v0 = y
    · subst hvy
      refine ⟨[⟨v0, mn0, mx0, vd0, a0, true, false, [1], [1], n0⟩,
        ⟨v0, mn1, mx1, vd1, a1, true, false, [0], [0], n1⟩], ?_, rfl, rfl, hb⟩
      unfold pvSet pvSetRaw
      simp only [pvGet_cons_zero, pvGet_cons_succ]
      rw [hy.2]
      simp
    · have hne : (v0 == y) = false := by simpa using hvy
      exact ⟨_, pvSet_pair_syncs_right v0 y mn0 mx0 mn1 mx1 vd0 vd1 a0 a1
        [1] [0] n0 n1 hy.1 hy.2 hne, rfl, rfl, by simp [boundPairConfig]⟩
  · -- unbind removes the edges
    exact ⟨_, unbindProps_pair v0 v0 mn0 mx0 mn1 mx1 vd0 vd1 a0 a1 n0 n1 t,
      by simp [unboundPairConfig], rfl, rfl⟩
  · -- unbound pair, write on 0 does not touch 1
    by_cases hvx : u0 = x2
    · subst hvx
      refine ⟨[⟨u0, umn0, umx0, uvd0, ua0, true, false, [], [], un0⟩,
        ⟨u1, umn1, umx1, uvd1, ua1, true, false, [], [], un1⟩], ?_, rfl, rfl, hu⟩
      unfold pvSet pvSetRaw
      simp only [pvGet_cons_zero]
      rw [hx2]
      simp
    · have hne : (u0 == x2) = false := by simpa using hvx
      exact ⟨_, pvSet_unbound_left u0 u1 x2 umn0 umx0 umn1 umx1 uvd0 uvd1
        ua0 ua1 [] [] un0 un1 hx2 hne, rfl, rfl,
        by simp [unboundPairConfig]⟩
  · -- unbound pair, write on 1 does not touch 0
    by_cases hvy : u1 = y2
    · subst hvy
      refine ⟨[⟨u0, umn0, umx0, uvd0, ua0, true, false, [], [], un0⟩,
        ⟨u1, umn1, umx1, uvd1, ua1, true, false, [], [], un1⟩], ?_, rfl, rfl, hu⟩
      unfold pvSet pvSetRaw
      simp only [pvGet_cons_zero, pvGet_cons_succ]
      rw [hy2]
      simp
    · have hne : (u1 == y2) = false := by simpa using hvy
      exact ⟨_, pvSet_unbound_right u0 u1 y2 umn0 umx0 umn1 umx1 uvd0 uvd1
        ua0 ua1 [] [] un0 un1 hy2 hne, rfl, rfl,
        by simp [unboundPairConfig]⟩

/-- A concrete mutually bound pair used as witness input. -/
def boundPairW : World :=
  [⟨5, some 0, some 10, true, false, true, false, [1], [1], 0⟩,
   ⟨5, some 0, some 10, true, false, true, false, [0], [0], 0⟩]

/-- A concrete unbound pair used as witness input. -/
def unboundPairW : World :=
  [⟨5, some 0, some 10, true, false, true, false, [], [], 0⟩,
   ⟨9, some 0, some 10, true, false, true, false, [], [], 0⟩]

/-- C1 witness: concrete hosts with an `Int(minval=0, maxval=10)`-style
property. -/
theorem bindProps_round_trip_witness :
    (boundPairConfig boundPairW = true ∧
     (pvValidVal (pvGet boundPairW 0) 9 = true ∧
      pvValidVal (pvGet boundPairW 1) 9 = true) ∧
     (pvValidVal (pvGet boundPairW 0) 2 = true ∧
      pvValidVal (pvGet boundPairW 1) 2 = true) ∧
     unboundPairConfig unboundPairW = true ∧
     pvValidVal (pvGet unboundPairW 0) 7 = true ∧
     pvValidVal (pvGet unboundPairW 1) 4 = true) ∧
    ((∃ w1, bindProps (freshPair 3 5 (some 0) (some 10) false false)
        7 7 0 1 true true false = .ok w1 ∧ boundPairConfig w1 = true ∧
        (pvGet w1 0).value = 5 ∧ (pvGet w1 1).value = 5) ∧
     (∃ w', pvSet boundPairW 0 9 = .ok w' ∧ (pvGet w' 0).value = 9 ∧
       (pvGet w' 1).value = 9 ∧ boundPairConfig w' = true) ∧
     (∃ w', pvSet boundPairW 1 2 = .ok w' ∧ (pvGet w' 0).value = 2 ∧
       (pvGet w' 1).value = 2 ∧ boundPairConfig w' = true) ∧
     (∃ w', unbindProps boundPairW 7 7 0 1 = .ok w' ∧
       unboundPairConfig w' = true ∧
       (pvGet w' 0).value = (pvGet boundPairW 0).value ∧
       (pvGet w' 1).value = (pvGet boundPairW 1).value) ∧
     (∃ w', pvSet unboundPairW 0 7 = .ok w' ∧ (pvGet w' 0).value = 7 ∧
       (pvGet w' 1).value = (pvGet unboundPairW 1).value ∧
       unboundPairConfig w' = true) ∧
     (∃ w', pvSet unboundPairW 1 4 = .ok w' ∧ (pvGet w' 1).value = 4 ∧
       (pvGet w' 0).value = (pvGet unboundPairW 0).value ∧
       unboundPairConfig w' = true)) :=
  ⟨⟨by decide, ⟨by decide, by decide⟩, ⟨by decide, by decide⟩, by decide,
    by decide, by decide⟩,
   bindProps_round_trip 3 5 9 2 7 4 (some 0) (some 10) false false 7
     boundPairW unboundPairW (by decide) ⟨by decide, by decide⟩
     ⟨by decide, by decide⟩ (by decide) (by decide) (by decide)⟩

/-- Setting container 0 of the binding cycle to a genuinely new value
converges all three containers to that value with exactly one listener
notification each. -/
theorem pvSet_cycle_syncs (x : Int) (hx : x ≠ 0) :
    pvSet cycleWorld 0 x = .ok (cycleWorldAfter x) := by
  have hne : ((0 : Int) == x) = false := by
    simp only [beq_eq_false_iff_ne]
    exact Ne.symm hx
  have hxv : (x == 0) = false := by simpa using hx
  have hxv' : ¬ x = 0 := hx
  have hsync :
      pvSync [⟨x, none, none, true, true, true, false, [1, 2], [1, 2], 0⟩,
              ⟨0, none, none, true, true, true, false, [0, 2], [0, 2], 0⟩,
              ⟨0, none, none, true, true, true, false, [1, 0], [1, 0], 0⟩] 0 =
      ([⟨x, none, none, true, true, true, false, [1, 2], [1, 2], 0⟩,
        ⟨x, none, none, true, true, true, false, [0, 2], [0, 2], 0⟩,
        ⟨x, none, none, true, true, true, false, [1, 0], [1, 0], 0⟩],
       [1, 2]) := by
    have hb := buildBPVList_cycle
      [⟨x, none, none, true, true, true, false, [1, 2], [1, 2], 0⟩,
       ⟨0, none, none, true, true, true, false, [0, 2], [0, 2], 0⟩,
       ⟨0, none, none, true, true, true, false, [1, 0], [1, 0], 0⟩]
      rfl rfl rfl
      (syncFuel [⟨x, none, none, true, true, true, false, [1, 2], [1, 2], 0⟩,
       ⟨0, none, none, true, true, true, false, [0, 2], [0, 2], 0⟩,
       ⟨0, none, none, true, true, true, false, [1, 0], [1, 0], 0⟩])
      (by unfold syncFuel; omega)
    unfold pvSync
    rw [hb]
    simp [pvStore, pvValidVal, hxv, hxv']
  unfold pvSet pvSetRaw cycleWorld
  simp only [pvGet_cons_zero]
  rw [if_neg (by simp [pvValidVal])]
  rw [if_neg (by simp [hne])]
  have hstore : pvStore
      [⟨0, none, none, true, true, true, false, [1, 2], [1, 2], 0⟩,
       ⟨0, none, none, true, true, true, false, [0, 2], [0, 2], 0⟩,
       ⟨0, none, none, true, true, true, false, [1, 0], [1, 0], 0⟩] 0 x =
      [⟨x, none, none, true, true, true, false, [1, 2], [1, 2], 0⟩,
       ⟨0, none, none, true, true, true, false, [0, 2], [0, 2], 0⟩,
       ⟨0, none, none, true, true, true, false, [1, 0], [1, 0], 0⟩] := by
    unfold pvStore
    simp [pvValidVal]
  rw [hstore]
  simp [pvNotify, hsync, origNotify, cycleWorldAfter]

/-- C2: on the binding cycle A-B, B-C, C-A (as produced by three
`bindProps` calls), setting A's value terminates and converges all three
containers to the new value with each container's listeners notified
exactly once; the `_buildBPVList` traversal gives the same result at every
recursion bound from 1 up (the visited set cuts the cycle, so the search
cannot loop), and on any world with duplicate-free bound dicts it reaches
each container at most once and never revisits one already reached. -/
theorem cycle_sync_converges_notifies_once (x : Int) (hx : x ≠ 0)
    (w : World) (att : Bool) (fuel node selfId : Nat) (visited : List Nat)
    (fuel2 : Nat) (hf2 : 1 ≤ fuel2)
    (hw : ∀ pv ∈ w, pv.bound.Nodup ∧ pv.attBound.Nodup)
    (hv : visited.Nodup) :
    (bindProps tripleFresh 0 0 0 1 true true false).bind
      (fun w1 => (bindProps w1 0 0 1 2 true true false).bind
        (fun w2 => bindProps w2 0 0 2 0 true true false)) = .ok cycleWorld ∧
    pvSet cycleWorld 0 x = .ok (cycleWorldAfter x) ∧
    buildBPVList cycleWorld 0 false fuel2 0 [] = ([1, 2], [0, 0], [1, 2]) ∧
    (buildBPVList w selfId att fuel node visited).1.Nodup ∧
    (∀ b ∈ (buildBPVList w selfId att fuel node visited).1, b ∉ visited) := by
  refine ⟨by decide, pvSet_cycle_syncs x hx,
    buildBPVList_cycle cycleWorld rfl rfl rfl fuel2 hf2, ?_, ?_⟩
  · exact ((buildBPVList_at_most_once w selfId att hw fuel).1 node visited hv).1
  · exact ((buildBPVList_at_most_once w selfId att hw fuel).1 node visited hv).2.1

/-- C2 witness: the concrete cycle with the new value 5. -/
theorem cycle_sync_converges_notifies_once_witness :
    ((5 : Int) ≠ 0 ∧ 1 ≤ 1 ∧
     (∀ pv ∈ cycleWorld, pv.bound.Nodup ∧ pv.attBound.Nodup) ∧
     ([] : List Nat).Nodup) ∧
    ((bindProps tripleFresh 0 0 0 1 true true false).bind
      (fun w1 => (bindProps w1 0 0 1 2 true true false).bind
        (fun w2 => bindProps w2 0 0 2 0 true true false)) = .ok cycleWorld ∧
     pvSet cycleWorld 0 5 = .ok (cycleWorldAfter 5) ∧
     buildBPVList cycleWorld 0 false 1 0 [] = ([1, 2], [0, 0], [1, 2]) ∧
     (buildBPVList cycleWorld 0 false 7 0 []).1.Nodup ∧
     (∀ b ∈ (buildBPVList cycleWorld 0 false 7 0 []).1, b ∉ ([] : List Nat))) :=
  ⟨⟨by decide, by decide, by decide, by decide⟩,
   cycle_sync_converges_notifies_once 5 (by decide) cycleWorld false 7 0 0 []
     1 (by decide) (by decide) (by decide)⟩

end Props
